import Mathlib

/-!
Shallow embedding of the Learning-Paths enrollment state-machine and audit
subsystem.

The definitions below are translated from the repository source:

* `core/models/enrollments.py` — `LearningPathEnrollment`,
  `LearningPathEnrollmentAllowed`, `LearningPathEnrollmentAudit` and its
  transition-label constants.
* `core/signals/enrollments.py` — `_create_enrollment_audit`,
  `create_enrollment_audit`, `create_enrollment_allowed_audit`,
  `process_pending_enrollments`.
* `learning_paths/api/v1/enrollments/views.py` — `BulkEnrollView.post`,
  `BulkEnrollView.delete`, `LearningPathEnrollmentView.post` / `.delete`.
* `learning_paths/models/groups.py` and
  `learning_paths/signals/group_membership.py` — the group-course
  enrollment reconciler.

The relational store is modelled as explicit lists of rows; `post_save`
signal receivers are modelled by composing the row mutation with the
receiver's effect, since Django dispatches them synchronously inside
`save()`.  Creation timestamps are modelled by the strictly increasing
`nextId` counter: row lists are kept in creation order, so
`order_by("-created").first()` is `List.reverse.head?` of the matching rows.
-/

namespace LearningPaths

/-- The transition-label constants of `LearningPathEnrollmentAudit`
(`core/models/enrollments.py`). -/
inductive Label where
  | UNENROLLED_TO_ALLOWEDTOENROLL
  | ALLOWEDTOENROLL_TO_ENROLLED
  | ENROLLED_TO_ENROLLED
  | ENROLLED_TO_UNENROLLED
  | UNENROLLED_TO_ENROLLED
  | ALLOWEDTOENROLL_TO_UNENROLLED
  | UNENROLLED_TO_UNENROLLED
  | DEFAULT_TRANSITION_STATE
deriving DecidableEq, Repr

/-- The seven canonical transition labels (all labels except the
`DEFAULT_TRANSITION_STATE` = "N/A" sentinel). -/
def canonicalLabels : List Label :=
  [.UNENROLLED_TO_ALLOWEDTOENROLL, .ALLOWEDTOENROLL_TO_ENROLLED,
   .ENROLLED_TO_ENROLLED, .ENROLLED_TO_UNENROLLED, .UNENROLLED_TO_ENROLLED,
   .ALLOWEDTOENROLL_TO_UNENROLLED, .UNENROLLED_TO_UNENROLLED]

/-- Row of the `LearningPathEnrollment` model: one (user, learning-path)
relationship.  `id` is the primary key; users and learning paths are
identified by numeric ids. -/
structure LearningPathEnrollment where
  id : Nat
  user : Nat
  learning_path : Nat
  is_active : Bool
deriving DecidableEq, Repr

/-- Row of the `LearningPathEnrollmentAllowed` model: an invitation tied to
an email address, with an optional user reference filled in at promotion. -/
structure LearningPathEnrollmentAllowed where
  id : Nat
  email : String
  learning_path : Nat
  user : Option Nat
  is_active : Bool
deriving DecidableEq, Repr

/-- Row of the `LearningPathEnrollmentAudit` model.  Both entity foreign
keys are nullable. -/
structure LearningPathEnrollmentAudit where
  id : Nat
  enrolled_by : Option Nat
  enrollment : Option Nat
  enrollment_allowed : Option Nat
  state_transition : Label
  reason : String
  org : String
  role : String
deriving DecidableEq, Repr

/-- The `_audit` dict attached to an instance before `save()`.  A field is
`none` when the corresponding dict key is absent. -/
structure AuditData where
  state_transition : Option Label := none
  enrolled_by : Option Nat := none
  reason : Option String := none
  org : Option String := none
  role : Option String := none
deriving DecidableEq, Repr

/-- Python truthiness test `if not (audit_data := getattr(instance, "_audit", {}))`:
an `_audit` dict with no keys is falsy. -/
def AuditData.isEmptyDict (a : AuditData) : Bool :=
  a.state_transition.isNone && a.enrolled_by.isNone && a.reason.isNone &&
    a.org.isNone && a.role.isNone

/-- A user account (the Django `User` rows referenced by the handlers; only
the primary key and email are relevant to this subsystem). -/
structure UserAccount where
  id : Nat
  email : String
deriving DecidableEq, Repr

/-- The relational store holding the three enrollment tables.  `nextId` is
the source of primary keys and doubles as the creation timestamp (rows are
appended in creation order). -/
structure DB where
  enrollments : List LearningPathEnrollment
  alloweds : List LearningPathEnrollmentAllowed
  audits : List LearningPathEnrollmentAudit
  nextId : Nat
deriving DecidableEq, Repr

def emptyDB : DB := { enrollments := [], alloweds := [], audits := [], nextId := 0 }

/-- Which related manager (`instance.audit`) an audit-creating call goes
through: the `enrollment` FK for `LearningPathEnrollment` instances, the
`enrollment_allowed` FK for `LearningPathEnrollmentAllowed` instances. -/
inductive AuditOwner where
  | enrollment (id : Nat)
  | allowed (id : Nat)
deriving DecidableEq, Repr

/-- Membership in the owner's `audit` related manager. -/
def auditBelongs (o : AuditOwner) (a : LearningPathEnrollmentAudit) : Bool :=
  match o with
  | .enrollment i => a.enrollment == some i
  | .allowed i => a.enrollment_allowed == some i

/-- `instance.audit.order_by("-created").first()`. -/
def latestAuditFor (db : DB) (o : AuditOwner) : Option LearningPathEnrollmentAudit :=
  ((db.audits.filter (auditBelongs o)).reverse).head?

/-- The most recently appended audit row of the whole table (used to state
properties of the row a save just created). -/
def lastAppended (db : DB) : Option LearningPathEnrollmentAudit :=
  db.audits.reverse.head?

/-- Label of the most recently appended audit row. -/
def lastLabel (db : DB) : Option Label :=
  (lastAppended db).map (fun a => a.state_transition)

/-- The audit row `_create_enrollment_audit(instance, audit_data)`
(`core/signals/enrollments.py`) inserts: `reason`/`org`/`role` are copied
forward from the entity's most recent audit when the caller's value is
missing or falsy (the empty string); the owner's foreign key is set through
the related manager; the label column defaults to
`DEFAULT_TRANSITION_STATE` (the model field default; every caller in the
repository supplies one). -/
def builtAuditRow (db : DB) (o : AuditOwner) (ad : AuditData) : LearningPathEnrollmentAudit :=
  let previous := latestAuditFor db o
  let inherit := fun (v : Option String) (prevField : String) =>
    if v.getD "" = "" then prevField else v.getD ""
  { id := db.nextId
    enrolled_by := ad.enrolled_by
    enrollment := match o with | .enrollment i => some i | .allowed _ => none
    enrollment_allowed := match o with | .enrollment _ => none | .allowed i => some i
    state_transition := ad.state_transition.getD .DEFAULT_TRANSITION_STATE
    reason := match previous with | some p => inherit ad.reason p.reason | none => ad.reason.getD ""
    org := match previous with | some p => inherit ad.org p.org | none => ad.org.getD ""
    role := match previous with | some p => inherit ad.role p.role | none => ad.role.getD "" }

/-- `_create_enrollment_audit(instance, audit_data)`: append the built
audit row. -/
def createEnrollmentAuditRow (db : DB) (o : AuditOwner) (ad : AuditData) : DB :=
  { db with audits := db.audits ++ [builtAuditRow db o ad], nextId := db.nextId + 1 }

/-- The label computation of `create_enrollment_audit`: a brand-new row is
`UNENROLLED_TO_ENROLLED`; otherwise the label is read off
(`tracker.previous("is_active")`, `instance.is_active`).  The final branch
mirrors the handler's unreachable `else`. -/
def computeTransition (created : Bool) (prevActive newActive : Bool) : Label :=
  if created then .UNENROLLED_TO_ENROLLED
  else if newActive && !prevActive then .UNENROLLED_TO_ENROLLED
  else if !newActive && prevActive then .ENROLLED_TO_UNENROLLED
  else if newActive && prevActive then .ENROLLED_TO_ENROLLED
  else if !newActive && !prevActive then .UNENROLLED_TO_UNENROLLED
  else .DEFAULT_TRANSITION_STATE

/-- `create_enrollment_audit` (post_save receiver for
`LearningPathEnrollment`): determine the state transition when the caller
did not supply one, then delegate to `_create_enrollment_audit`.  It runs
on every save of an enrollment row, whether or not `_audit` was attached
(a missing `_audit` attribute is the empty dict). -/
def create_enrollment_audit (db : DB) (eid : Nat) (ad : AuditData)
    (created prevActive newActive : Bool) : DB :=
  let ad := if ad.state_transition.isNone then
      { ad with state_transition := some (computeTransition created prevActive newActive) }
    else ad
  createEnrollmentAuditRow db (.enrollment eid) ad

/-- `create_enrollment_allowed_audit` (post_save receiver for
`LearningPathEnrollmentAllowed`): return without creating anything when no
(non-empty) `_audit` dict is attached; otherwise default the label to
`UNENROLLED_TO_ALLOWEDTOENROLL` and delegate. -/
def create_enrollment_allowed_audit (db : DB) (aid : Nat) (ad : Option AuditData) : DB :=
  match ad with
  | none => db
  | some d =>
    if d.isEmptyDict then db
    else
      let d := if d.state_transition.isNone then
          { d with state_transition := some .UNENROLLED_TO_ALLOWEDTOENROLL }
        else d
      createEnrollmentAuditRow db (.allowed aid) d

/-- `LearningPathEnrollment.objects.filter(user=..., learning_path=...).first()`
(at most one row exists by the unique-together constraint). -/
def findEnrollment (db : DB) (u p : Nat) : Option LearningPathEnrollment :=
  db.enrollments.find? (fun e => e.user == u && e.learning_path == p)

/-- `LearningPathEnrollmentAllowed.objects.filter(email=..., learning_path=...).first()`. -/
def findAllowed (db : DB) (email : String) (p : Nat) : Option LearningPathEnrollmentAllowed :=
  db.alloweds.find? (fun a => a.email == email && a.learning_path == p)

/-- Saving a fresh `LearningPathEnrollment(user=u, learning_path=p)`
instance: the INSERT raises `IntegrityError` (returns `none`, no audit)
when a row for the unique (user, learning_path) pair already exists;
otherwise the row is stored and the post_save receiver fires with
`created=True`.  Returns the new primary key alongside the store. -/
def insertEnrollment (db : DB) (u p : Nat) (isActive : Bool) (ad : AuditData) :
    Option (DB × Nat) :=
  if (findEnrollment db u p).isSome then none
  else
    let eid := db.nextId
    let e : LearningPathEnrollment := { id := eid, user := u, learning_path := p, is_active := isActive }
    let db := { db with enrollments := db.enrollments ++ [e], nextId := db.nextId + 1 }
    some (create_enrollment_audit db eid ad true isActive isActive, eid)

/-- Saving an already-persisted enrollment instance after (possibly)
assigning `is_active`: an UPDATE of the row followed by the post_save
receiver with `created=False`, where `tracker.previous("is_active")` is the
previously stored value. -/
def updateEnrollmentActive (db : DB) (eid : Nat) (newActive : Bool) (ad : AuditData) : DB :=
  match db.enrollments.find? (fun e => e.id == eid) with
  | none => db
  | some e =>
    let prev := e.is_active
    let db := { db with enrollments :=
      db.enrollments.map (fun x => if x.id == eid then { x with is_active := newActive } else x) }
    create_enrollment_audit db eid ad false prev newActive

/-- `LearningPathEnrollmentAllowed.objects.get_or_create(email=..., learning_path=...)`:
fetch the existing row, or insert one with the field defaults
(`user=None`, `is_active=True`).  The insert's post_save receiver sees no
`_audit` attribute, so it creates nothing.  Returns the (snapshot of the)
row and the `created` flag. -/
def getOrCreateAllowed (db : DB) (email : String) (p : Nat) :
    DB × LearningPathEnrollmentAllowed × Bool :=
  match findAllowed db email p with
  | some a => (db, a, false)
  | none =>
    let a : LearningPathEnrollmentAllowed :=
      { id := db.nextId, email := email, learning_path := p, user := none, is_active := true }
    ({ db with alloweds := db.alloweds ++ [a], nextId := db.nextId + 1 }, a, true)

/-- Saving an already-persisted `LearningPathEnrollmentAllowed` instance
after assigning `is_active` / `user`: an UPDATE of the row followed by the
post_save receiver, which creates one audit row only when a non-empty
`_audit` dict (`ad`) is attached. -/
def saveAllowed (db : DB) (aid : Nat) (newActive : Bool) (newUser : Option Nat)
    (ad : Option AuditData) : DB :=
  let rows := db.alloweds.map (fun x => if x.id == aid then { x with is_active := newActive, user := newUser } else x)
  let db := { db with alloweds := rows }
  create_enrollment_allowed_audit db aid ad

/-- The `audit_data` dict built at the top of the `for entry in
pending_enrollments` loop: actor = the new user, the explicit
`ALLOWEDTOENROLL_TO_ENROLLED` label, and `reason`/`org`/`role` copied from
the allowed-record's most recent audit entry when one exists. -/
def pendingAuditData (db : DB) (u : UserAccount) (entry : LearningPathEnrollmentAllowed) : AuditData :=
  let ad0 : AuditData :=
    { enrolled_by := some u.id, state_transition := some .ALLOWEDTOENROLL_TO_ENROLLED }
  match latestAuditFor db (.allowed entry.id) with
  | some last => { ad0 with reason := some last.reason, org := some last.org, role := some last.role }
  | none => ad0

/-- Body of the `for entry in pending_enrollments` loop of
`process_pending_enrollments`: build the `ALLOWEDTOENROLL_TO_ENROLLED`
audit metadata, save a fresh enrollment for the new user, re-parent the
allowed-record's audits onto it (`entry.audit.update(enrollment=...)` sets
the `enrollment` FK and leaves `enrollment_allowed` untouched), and — in
the `finally` clause, hence also on the `IntegrityError` path — deactivate
the entry, attach the user, and save it (without `_audit`). -/
def resolveOneAllowed (db : DB) (u : UserAccount) (entry : LearningPathEnrollmentAllowed) : DB :=
  let ad := pendingAuditData db u entry
  let db1 := match insertEnrollment db u.id entry.learning_path true ad with
    | some (db2, eid) =>
      let reparented := db2.audits.map
        (fun a => if a.enrollment_allowed == some entry.id then { a with enrollment := some eid } else a)
      { db2 with audits := reparented }
    | none => db
  saveAllowed db1 entry.id false (some u.id) none

/-- `process_pending_enrollments` (post_save receiver on `User`): on user
creation, iterate over the active `LearningPathEnrollmentAllowed` rows
matching the new account's email (the queryset is evaluated once, before
the loop mutates any row) and resolve each. -/
def process_pending_enrollments (db : DB) (u : UserAccount) (created : Bool) : DB :=
  if !created then db
  else
    let pending := db.alloweds.filter (fun a => a.email == u.email && a.is_active)
    pending.foldl (fun acc entry => resolveOneAllowed acc u entry) db

/-- The per-request audit metadata of `BulkEnrollView._create_audit_data`:
the acting staff user plus the `reason`/`org`/`role` strings taken from the
request body (defaulting to `""`, and always present as keys). -/
structure BulkMeta where
  enrolled_by : Option Nat
  reason : String
  org : String
  role : String
deriving DecidableEq, Repr

/-- `BulkEnrollView._create_audit_data(request, state_transition)`. -/
def bulkAuditData (m : BulkMeta) (st : Label) : AuditData :=
  { state_transition := some st, enrolled_by := m.enrolled_by,
    reason := some m.reason, org := some m.org, role := some m.role }

/-- Body of the existing-user loop of `BulkEnrollView.post` for one
(learning path, user) pair.  Returns the store plus the number of
elements this pair appended to `enrollments_created`. -/
def bulkEnrollUserStep (db : DB) (m : BulkMeta) (p u : Nat) : DB × Nat :=
  match findEnrollment db u p with
  | some e =>
    if !e.is_active then
      (updateEnrollmentActive db e.id true (bulkAuditData m .UNENROLLED_TO_ENROLLED), 1)
    else
      (updateEnrollmentActive db e.id e.is_active (bulkAuditData m .ENROLLED_TO_ENROLLED), 0)
  | none =>
    match insertEnrollment db u p true (bulkAuditData m .UNENROLLED_TO_ENROLLED) with
    | some (db2, _) => (db2, 1)
    | none => (db, 0)

/-- Body of the accountless-email loop of `BulkEnrollView.post` for one
(learning path, email) pair: skip invalid emails, `get_or_create` the
allowed-record, activate and count it when it was just created or was both
un-owned and inactive, then re-save it with the explicit
`UNENROLLED_TO_ALLOWEDTOENROLL` audit metadata. -/
def bulkEnrollEmailStep (db : DB) (m : BulkMeta) (validEmail : String → Bool)
    (p : Nat) (email : String) : DB × Nat :=
  if !validEmail email then (db, 0)
  else
    let (db1, a, created) := getOrCreateAllowed db email p
    let counted := created || (a.user.isNone && !a.is_active)
    let newActive := if counted then true else a.is_active
    let ad := bulkAuditData m .UNENROLLED_TO_ALLOWEDTOENROLL
    (saveAllowed db1 a.id newActive a.user (some ad), if counted then 1 else 0)

/-- `BulkEnrollView.post`: for each valid learning path, process every
existing-account user and then every accountless email; return the store
with `len(enrollments_created)` and `len(enrollment_allowed_created)`. -/
def bulk_enroll (db : DB) (m : BulkMeta) (validEmail : String → Bool)
    (paths : List Nat) (existingUsers : List Nat) (nonExistingEmails : List String) :
    DB × Nat × Nat :=
  paths.foldl (fun acc p =>
    let (db, ec, ac) := acc
    let (db, ec) := existingUsers.foldl (fun acc2 u =>
      let (db, c) := acc2
      let (db2, i) := bulkEnrollUserStep db m p u
      (db2, c + i)) (db, ec)
    let (db, ac) := nonExistingEmails.foldl (fun acc2 e =>
      let (db, c) := acc2
      let (db2, i) := bulkEnrollEmailStep db m validEmail p e
      (db2, c + i)) (db, ac)
    (db, ec, ac)) (db, 0, 0)

/-- Body of the existing-user loop of `BulkEnrollView.delete` for one
(learning path, user) pair: deactivate an active enrollment
(`ENROLLED_TO_UNENROLLED`, counted) or re-save an inactive one unchanged
(`UNENROLLED_TO_UNENROLLED`, audited but not counted); users without an
enrollment row are untouched. -/
def bulkUnenrollUserStep (db : DB) (m : BulkMeta) (p u : Nat) : DB × Nat :=
  match findEnrollment db u p with
  | some e =>
    if e.is_active then
      (updateEnrollmentActive db e.id false (bulkAuditData m .ENROLLED_TO_UNENROLLED), 1)
    else
      (updateEnrollmentActive db e.id e.is_active (bulkAuditData m .UNENROLLED_TO_UNENROLLED), 0)
  | none => (db, 0)

/-- Body of the email loop of `BulkEnrollView.delete` for one
(learning path, email) pair: deactivate an active allowed-record
(`ALLOWEDTOENROLL_TO_UNENROLLED`, counted) or re-save an inactive one as an
audited `UNENROLLED_TO_UNENROLLED` no-op. -/
def bulkUnenrollEmailStep (db : DB) (m : BulkMeta) (validEmail : String → Bool)
    (p : Nat) (email : String) : DB × Nat :=
  if !validEmail email then (db, 0)
  else
    match findAllowed db email p with
    | some a =>
      if a.is_active then
        (saveAllowed db a.id false a.user (some (bulkAuditData m .ALLOWEDTOENROLL_TO_UNENROLLED)), 1)
      else
        (saveAllowed db a.id a.is_active a.user (some (bulkAuditData m .UNENROLLED_TO_UNENROLLED)), 0)
    | none => (db, 0)

/-- `BulkEnrollView.delete`: for each valid learning path, process every
existing-account user and then every submitted email; return the store
with `len(enrollments_unenrolled)` and `len(enrollment_allowed_deactivated)`. -/
def bulk_unenroll (db : DB) (m : BulkMeta) (validEmail : String → Bool)
    (paths : List Nat) (existingUsers : List Nat) (emails : List String) :
    DB × Nat × Nat :=
  paths.foldl (fun acc p =>
    let (db, ec, ac) := acc
    let (db, ec) := existingUsers.foldl (fun acc2 u =>
      let (db, c) := acc2
      let (db2, i) := bulkUnenrollUserStep db m p u
      (db2, c + i)) (db, ec)
    let (db, ac) := emails.foldl (fun acc2 e =>
      let (db, c) := acc2
      let (db2, i) := bulkUnenrollEmailStep db m validEmail p e
      (db2, c + i)) (db, ac)
    (db, ec, ac)) (db, 0, 0)

/-- `LearningPathEnrollmentView.post` after permission checks:
`get_or_create` the enrollment (a creation saves with no `_audit`), answer
409 when it is already active, otherwise reactivate and save. -/
def enrollmentViewEnroll (db : DB) (u p : Nat) : DB :=
  match findEnrollment db u p with
  | none =>
    match insertEnrollment db u p true {} with
    | some (db2, _) => db2
    | none => db
  | some e =>
    if e.is_active then db
    else updateEnrollmentActive db e.id true {}

/-- `LearningPathEnrollmentView.delete` after permission checks: 404 when
no active enrollment exists, otherwise deactivate and save (no `_audit`). -/
def enrollmentViewUnenroll (db : DB) (u p : Nat) : DB :=
  match db.enrollments.find? (fun e => e.user == u && e.learning_path == p && e.is_active) with
  | none => db
  | some e => updateEnrollmentActive db e.id false {}

/-- The operations of the enrollment subsystem that mutate the store
(single enroll/unenroll through `LearningPathEnrollmentView`, the two bulk
operations, and user creation triggering `process_pending_enrollments`).
Bulk inputs carry the already-partitioned users/emails and the host email
validator. -/
inductive Op where
  | enroll (userId pathId : Nat)
  | unenroll (userId pathId : Nat)
  | bulkEnroll (m : BulkMeta) (validEmail : String → Bool)
      (paths : List Nat) (users : List Nat) (emails : List String)
  | bulkUnenroll (m : BulkMeta) (validEmail : String → Bool)
      (paths : List Nat) (users : List Nat) (emails : List String)
  | userCreated (u : UserAccount) (created : Bool)

/-- Interpret one operation on the store. -/
def applyOp (db : DB) : Op → DB
  | .enroll u p => enrollmentViewEnroll db u p
  | .unenroll u p => enrollmentViewUnenroll db u p
  | .bulkEnroll m v ps us es => (bulk_enroll db m v ps us es).1
  | .bulkUnenroll m v ps us es => (bulk_unenroll db m v ps us es).1
  | .userCreated u c => process_pending_enrollments db u c

/-- Run a sequence of operations from the empty store. -/
def runOps (ops : List Op) : DB :=
  ops.foldl applyOp emptyDB

/-! ### Group-course enrollment reconciler
(`learning_paths/models/groups.py`, `learning_paths/signals/group_membership.py`) -/

/-- Status constants of `GroupCourseEnrollmentAudit`. -/
inductive GStatus where
  | SUCCESS
  | FAILED
  | SKIPPED
deriving DecidableEq, Repr

/-- Row of `GroupCourseAssignment` (the group is carried inline with its
name, which the handlers interpolate into `reason` strings). -/
structure GroupCourseAssignmentRec where
  id : Nat
  group : Nat
  groupName : String
  course_id : String
  enrollment_mode : String
  auto_enroll : Bool
  is_active : Bool
deriving DecidableEq, Repr

/-- Row of `GroupCourseEnrollmentAudit` (the fields the handlers write). -/
structure GroupCourseEnrollmentAudit where
  assignment : Option Nat
  user : Option Nat
  enrolled_by : Option Nat
  status : GStatus
  error_message : String
  reason : String
deriving DecidableEq, Repr

/-- Outcome of a host-platform `enroll_user_in_course` /
`unenroll_user_from_course` call: a returned boolean, or a raised
exception carrying its message. -/
inductive HostResult where
  | ok (success : Bool)
  | raised (msg : String)
deriving DecidableEq, Repr

/-- The Python local state of `auto_enroll_on_group_membership_change`'s
nested loop: the audit rows written so far, the success/failure counters,
and the function-local `reason` and `operation` variables, which are
`none` until their first assignment and keep their last value across
iterations. -/
structure GMState where
  audits : List GroupCourseEnrollmentAudit
  reasonVar : Option String
  operationVar : Option String
  successCount : Nat
  failedCount : Nat
deriving DecidableEq, Repr

def GMState.init : GMState :=
  { audits := [], reasonVar := none, operationVar := none, successCount := 0, failedCount := 0 }

/-- One (assignment, user) iteration of
`auto_enroll_on_group_membership_change`.  On a returned boolean the
handler writes a SUCCESS/SKIPPED audit row and assigns `reason` and
`operation`.  On a raised exception the `except` block first evaluates the
local variables `operation` (in `logger.exception`) and `reason` (in the
audit create): when the very first pair raises they are still unassigned,
so Python raises `UnboundLocalError` out of the handler; otherwise a
FAILED row is written with the stale `reason` of the previous pair. -/
def groupPairStep (isEnrolling : Bool) (host : GroupCourseAssignmentRec → Nat → HostResult)
    (s : GMState) (asg : GroupCourseAssignmentRec) (u : Nat) : Except String GMState :=
  match host asg u with
  | .ok success =>
    let reason := if isEnrolling then
        "Auto-enrollment via group membership in " ++ asg.groupName
      else
        "Auto-unenrollment via group removal from " ++ asg.groupName
    let operation := if isEnrolling then "enroll" else "unenroll"
    let audit : GroupCourseEnrollmentAudit :=
      { assignment := some asg.id, user := some u, enrolled_by := some u,
        status := if success then .SUCCESS else .SKIPPED, error_message := "", reason := reason }
    .ok { audits := s.audits ++ [audit], reasonVar := some reason, operationVar := some operation,
          successCount := s.successCount + (if success then 1 else 0), failedCount := s.failedCount }
  | .raised msg =>
    match s.operationVar, s.reasonVar with
    | some _, some staleReason =>
      let audit : GroupCourseEnrollmentAudit :=
        { assignment := some asg.id, user := some u, enrolled_by := some u,
          status := .FAILED, error_message := msg, reason := staleReason }
      .ok { s with audits := s.audits ++ [audit], failedCount := s.failedCount + 1 }
    | _, _ => .error "UnboundLocalError"

/-- The assignment queryset of `auto_enroll_on_group_membership_change`:
active assignments, additionally gated by `auto_enroll` when enrolling. -/
def activeAssignments (isEnrolling : Bool) (asgs : List GroupCourseAssignmentRec) :
    List GroupCourseAssignmentRec :=
  if isEnrolling then asgs.filter (fun a => a.is_active && a.auto_enroll)
  else asgs.filter (fun a => a.is_active)

/-- `auto_enroll_on_group_membership_change` for a resolved (groups →
assignments, users) pair set: early return when no active assignment
matches, otherwise run the nested per-(assignment, user) loop. -/
def auto_enroll_on_group_membership_change (isEnrolling : Bool)
    (host : GroupCourseAssignmentRec → Nat → HostResult)
    (assignments : List GroupCourseAssignmentRec) (users : List Nat) :
    Except String GMState :=
  let asgs := activeAssignments isEnrolling assignments
  if asgs.isEmpty then .ok GMState.init
  else
    asgs.foldlM (fun s asg => users.foldlM (fun s2 u => groupPairStep isEnrolling host s2 asg u) s)
      GMState.init

/-- The `reason` string written by `auto_unenroll_on_assignment_deletion`. -/
def deletionReason (groupName courseId : String) : String :=
  "Auto-unenrollment due to deletion of group-course assignment: " ++ groupName ++ " → " ++ courseId

/-- The unenroll calls issued and audit rows written by
`auto_unenroll_on_assignment_deletion`. -/
structure DeletionOutcome where
  calls : List (Nat × String)
  audits : List GroupCourseEnrollmentAudit
deriving DecidableEq, Repr

/-- One member iteration of `auto_unenroll_on_assignment_deletion`: call
the host unenroll primitive and write exactly one audit row with
`assignment=None` (the row being deleted can no longer be referenced) and
the deletion reason string; a raised host exception is caught and recorded
as a FAILED row with its message. -/
def deletionMemberStep (host : Nat → HostResult) (asg : GroupCourseAssignmentRec)
    (s : DeletionOutcome) (u : Nat) : DeletionOutcome :=
  let s := { s with calls := s.calls ++ [(u, asg.course_id)] }
  match host u with
  | .ok success =>
    { s with audits := s.audits ++
        [{ assignment := none, user := some u, enrolled_by := none,
           status := if success then .SUCCESS else .SKIPPED, error_message := "",
           reason := deletionReason asg.groupName asg.course_id }] }
  | .raised msg =>
    { s with audits := s.audits ++
        [{ assignment := none, user := some u, enrolled_by := none,
           status := .FAILED, error_message := msg,
           reason := deletionReason asg.groupName asg.course_id }] }

/-- `auto_unenroll_on_assignment_deletion` (post_delete receiver on
`GroupCourseAssignment`): process every current member of the group. -/
def auto_unenroll_on_assignment_deletion (host : Nat → HostResult)
    (asg : GroupCourseAssignmentRec) (members : List Nat) : DeletionOutcome :=
  members.foldl (deletionMemberStep host asg) { calls := [], audits := [] }

/-! ### Accessors for the most recently appended audit row -/

/-- Reason of the most recently appended audit row. -/
def lastReason (db : DB) : Option String :=
  (lastAppended db).map (fun a => a.reason)

/-- Org of the most recently appended audit row. -/
def lastOrg (db : DB) : Option String :=
  (lastAppended db).map (fun a => a.org)

/-- Role of the most recently appended audit row. -/
def lastRole (db : DB) : Option String :=
  (lastAppended db).map (fun a => a.role)

/-! ### Helper lemmas -/

theorem foldl_inv {α : Type} {β : Type} (P : α → Prop) (f : α → β → α)
    (h : ∀ s x, P s → P (f s x)) (l : List β) (s : α) (hs : P s) : P (l.foldl f s) := by
  induction l generalizing s with
  | nil => exact hs
  | cons x xs ih => exact ih (f s x) (h s x hs)

theorem createRow_audits_length (db : DB) (o : AuditOwner) (ad : AuditData) :
    (createEnrollmentAuditRow db o ad).audits.length = db.audits.length + 1 := by
  simp [createEnrollmentAuditRow]

theorem createRow_enrollments (db : DB) (o : AuditOwner) (ad : AuditData) :
    (createEnrollmentAuditRow db o ad).enrollments = db.enrollments := rfl

theorem createRow_alloweds (db : DB) (o : AuditOwner) (ad : AuditData) :
    (createEnrollmentAuditRow db o ad).alloweds = db.alloweds := rfl

theorem lastLabel_createRow (db : DB) (o : AuditOwner) (ad : AuditData) :
    lastLabel (createEnrollmentAuditRow db o ad) =
      some (ad.state_transition.getD .DEFAULT_TRANSITION_STATE) := by
  simp [createEnrollmentAuditRow, builtAuditRow, lastLabel, lastAppended, List.reverse_append]

theorem lastReason_createRow_prev (db : DB) (o : AuditOwner) (ad : AuditData)
    (prev : LearningPathEnrollmentAudit) (h : latestAuditFor db o = some prev) :
    lastReason (createEnrollmentAuditRow db o ad) =
      some (if ad.reason.getD "" = "" then prev.reason else ad.reason.getD "") := by
  simp [createEnrollmentAuditRow, builtAuditRow, lastReason, lastAppended, List.reverse_append, h]

theorem lastOrg_createRow_prev (db : DB) (o : AuditOwner) (ad : AuditData)
    (prev : LearningPathEnrollmentAudit) (h : latestAuditFor db o = some prev) :
    lastOrg (createEnrollmentAuditRow db o ad) =
      some (if ad.org.getD "" = "" then prev.org else ad.org.getD "") := by
  simp [createEnrollmentAuditRow, builtAuditRow, lastOrg, lastAppended, List.reverse_append, h]

theorem lastRole_createRow_prev (db : DB) (o : AuditOwner) (ad : AuditData)
    (prev : LearningPathEnrollmentAudit) (h : latestAuditFor db o = some prev) :
    lastRole (createEnrollmentAuditRow db o ad) =
      some (if ad.role.getD "" = "" then prev.role else ad.role.getD "") := by
  simp [createEnrollmentAuditRow, builtAuditRow, lastRole, lastAppended, List.reverse_append, h]

theorem lastReason_createRow_none (db : DB) (o : AuditOwner) (ad : AuditData)
    (h : latestAuditFor db o = none) :
    lastReason (createEnrollmentAuditRow db o ad) = some (ad.reason.getD "") := by
  simp [createEnrollmentAuditRow, builtAuditRow, lastReason, lastAppended, List.reverse_append, h]

theorem computeTransition_mem_canonical (c p n : Bool) :
    computeTransition c p n ∈ canonicalLabels := by
  cases c <;> cases p <;> cases n <;> decide

theorem lastLabel_create_enrollment_audit_some (db : DB) (eid : Nat) (ad : AuditData)
    (c p n : Bool) (l : Label) (h : ad.state_transition = some l) :
    lastLabel (create_enrollment_audit db eid ad c p n) = some l := by
  simp [create_enrollment_audit, h, lastLabel_createRow]

theorem lastLabel_create_enrollment_audit_none (db : DB) (eid : Nat) (ad : AuditData)
    (c p n : Bool) (h : ad.state_transition = none) :
    lastLabel (create_enrollment_audit db eid ad c p n) = some (computeTransition c p n) := by
  simp [create_enrollment_audit, h, lastLabel_createRow]

theorem create_enrollment_audit_audits_length (db : DB) (eid : Nat) (ad : AuditData)
    (c p n : Bool) :
    (create_enrollment_audit db eid ad c p n).audits.length = db.audits.length + 1 := by
  simp only [create_enrollment_audit]
  split <;> exact createRow_audits_length ..

theorem updateEnrollmentActive_audits_length (db : DB) (eid : Nat) (newA : Bool)
    (ad : AuditData) (h : (db.enrollments.find? (fun x => x.id == eid)).isSome = true) :
    (updateEnrollmentActive db eid newA ad).audits.length = db.audits.length + 1 := by
  obtain ⟨e, he⟩ := Option.isSome_iff_exists.mp h
  simp only [updateEnrollmentActive, he]
  exact create_enrollment_audit_audits_length ..

theorem insertEnrollment_eq_some (db : DB) (u p : Nat) (act : Bool) (ad : AuditData)
    (db2 : DB) (eid : Nat) (h : insertEnrollment db u p act ad = some (db2, eid)) :
    db2 = create_enrollment_audit
        { db with enrollments := db.enrollments ++ [⟨db.nextId, u, p, act⟩], nextId := db.nextId + 1 }
        db.nextId ad true act act
      ∧ eid = db.nextId ∧ (findEnrollment db u p).isSome = false := by
  by_cases hf : (findEnrollment db u p).isSome = true
  · simp [insertEnrollment, hf] at h
  · simp only [Bool.not_eq_true] at hf
    simp [insertEnrollment, hf] at h
    exact ⟨h.1.symm, h.2.symm, hf⟩

theorem insertEnrollment_audits_length (db : DB) (u p : Nat) (act : Bool) (ad : AuditData)
    (db2 : DB) (eid : Nat) (h : insertEnrollment db u p act ad = some (db2, eid)) :
    db2.audits.length = db.audits.length + 1 := by
  obtain ⟨h1, _, _⟩ := insertEnrollment_eq_some db u p act ad db2 eid h
  subst h1
  exact create_enrollment_audit_audits_length ..

theorem saveAllowed_audits_none (db : DB) (aid : Nat) (act : Bool) (usr : Option Nat) :
    (saveAllowed db aid act usr none).audits = db.audits := rfl

theorem saveAllowed_audits_empty (db : DB) (aid : Nat) (act : Bool) (usr : Option Nat)
    (ad : AuditData) (h : ad.isEmptyDict = true) :
    (saveAllowed db aid act usr (some ad)).audits = db.audits := by
  simp [saveAllowed, create_enrollment_allowed_audit, h]

theorem saveAllowed_audits_length (db : DB) (aid : Nat) (act : Bool) (usr : Option Nat)
    (ad : AuditData) (h : ad.isEmptyDict = false) :
    (saveAllowed db aid act usr (some ad)).audits.length = db.audits.length + 1 := by
  simp only [saveAllowed, create_enrollment_allowed_audit, h, Bool.false_eq_true, if_false]
  split <;> exact createRow_audits_length ..

theorem lastLabel_saveAllowed_some (db : DB) (aid : Nat) (act : Bool) (usr : Option Nat)
    (ad : AuditData) (l : Label) (hne : ad.isEmptyDict = false)
    (h : ad.state_transition = some l) :
    lastLabel (saveAllowed db aid act usr (some ad)) = some l := by
  simp [saveAllowed, create_enrollment_allowed_audit, hne, h, lastLabel_createRow]

theorem lastLabel_saveAllowed_default (db : DB) (aid : Nat) (act : Bool) (usr : Option Nat)
    (ad : AuditData) (hne : ad.isEmptyDict = false) (h : ad.state_transition = none) :
    lastLabel (saveAllowed db aid act usr (some ad)) =
      some .UNENROLLED_TO_ALLOWEDTOENROLL := by
  simp [saveAllowed, create_enrollment_allowed_audit, hne, h, lastLabel_createRow]

theorem getOrCreateAllowed_audits (db : DB) (email : String) (p : Nat) :
    ((getOrCreateAllowed db email p).1).audits = db.audits := by
  simp only [getOrCreateAllowed]
  split <;> rfl

/-! ### Claim C1 -/

/-- C1 — Audit completeness: every save of a `LearningPathEnrollment` row
(the UPDATE form and the successful INSERT form, with or without `_audit`
metadata) appends exactly one new audit row, and the receiver's label —
whether computed or supplied from a canonical label — lies in the
seven-value canonical set; every save of a `LearningPathEnrollmentAllowed`
row with a non-empty `_audit` dict appends exactly one new audit row with
a canonical label, while a save without it (including the implicit save of
a bare `get_or_create` creation) appends none. -/
theorem c1_audit_completeness :
    (∀ db eid newA ad, (db.enrollments.find? (fun x : LearningPathEnrollment => x.id == eid)).isSome = true →
      (updateEnrollmentActive db eid newA ad).audits.length = db.audits.length + 1)
    ∧ (∀ db u p act ad db2 eid, insertEnrollment db u p act ad = some (db2, eid) →
      db2.audits.length = db.audits.length + 1)
    ∧ (∀ db eid ad c p n,
      (ad.state_transition = none ∨ ∃ l ∈ canonicalLabels, ad.state_transition = some l) →
      ∃ l ∈ canonicalLabels, lastLabel (create_enrollment_audit db eid ad c p n) = some l)
    ∧ (∀ db aid act usr ad, ad.isEmptyDict = false →
      (saveAllowed db aid act usr (some ad)).audits.length = db.audits.length + 1
      ∧ ((ad.state_transition = none ∨ ∃ l ∈ canonicalLabels, ad.state_transition = some l) →
        ∃ l ∈ canonicalLabels, lastLabel (saveAllowed db aid act usr (some ad)) = some l))
    ∧ (∀ db aid act usr, (saveAllowed db aid act usr none).audits = db.audits)
    ∧ (∀ db aid act usr ad, ad.isEmptyDict = true →
      (saveAllowed db aid act usr (some ad)).audits = db.audits)
    ∧ (∀ db email p, ((getOrCreateAllowed db email p).1).audits = db.audits) := by
  refine ⟨?_, ?_, ?_, ?_, ?_, ?_, ?_⟩
  · exact fun db eid newA ad h => updateEnrollmentActive_audits_length db eid newA ad h
  · exact fun db u p act ad db2 eid h => insertEnrollment_audits_length db u p act ad db2 eid h
  · intro db eid ad c p n h
    rcases h with h | ⟨l, hl, h⟩
    · exact ⟨computeTransition c p n, computeTransition_mem_canonical c p n,
        lastLabel_create_enrollment_audit_none db eid ad c p n h⟩
    · exact ⟨l, hl, lastLabel_create_enrollment_audit_some db eid ad c p n l h⟩
  · intro db aid act usr ad hne
    refine ⟨saveAllowed_audits_length db aid act usr ad hne, ?_⟩
    intro h
    rcases h with h | ⟨l, hl, h⟩
    · exact ⟨.UNENROLLED_TO_ALLOWEDTOENROLL, by decide,
        lastLabel_saveAllowed_default db aid act usr ad hne h⟩
    · exact ⟨l, hl, lastLabel_saveAllowed_some db aid act usr ad l hne h⟩
  · exact saveAllowed_audits_none
  · exact saveAllowed_audits_empty
  · exact getOrCreateAllowed_audits

/-- Witness for C1 at concrete inputs: a store with one enrollment row and
one allowed row, saved in each of the audited and non-audited forms. -/
theorem c1_witness :
    (updateEnrollmentActive
        { enrollments := [⟨0, 10, 1, true⟩], alloweds := [⟨1, "w@x.com", 1, none, true⟩],
          audits := [], nextId := 2 } 0 false {}).audits.length = 1
    ∧ (∃ l ∈ canonicalLabels, lastLabel (create_enrollment_audit emptyDB 0 {} true false true) = some l)
    ∧ (saveAllowed
        { enrollments := [⟨0, 10, 1, true⟩], alloweds := [⟨1, "w@x.com", 1, none, true⟩],
          audits := [], nextId := 2 } 1 true none
        (some { state_transition := some .UNENROLLED_TO_ALLOWEDTOENROLL })).audits.length = 1
    ∧ (saveAllowed
        { enrollments := [⟨0, 10, 1, true⟩], alloweds := [⟨1, "w@x.com", 1, none, true⟩],
          audits := [], nextId := 2 } 1 false (some 10) none).audits = [] :=
  ⟨c1_audit_completeness.1 _ 0 false {} (by decide),
   c1_audit_completeness.2.2.1 emptyDB 0 {} true false true (Or.inl rfl),
   (c1_audit_completeness.2.2.2.1 _ 1 true none _ (by decide)).1,
   c1_audit_completeness.2.2.2.2.1 _ 1 false (some 10)⟩

/-! ### Claim C5 -/

/-- C5 — Transition-label determination: a brand-new enrollment row is
labeled `UNENROLLED_TO_ENROLLED` regardless of its `is_active` value;
otherwise the label follows the (previous, new) `is_active` table; a
caller-supplied label always overrides the computation, including
`ALLOWEDTOENROLL_TO_ENROLLED` overriding the new-row default. -/
theorem c5_transition_label_determination :
    (∀ p n, computeTransition true p n = .UNENROLLED_TO_ENROLLED)
    ∧ computeTransition false false true = .UNENROLLED_TO_ENROLLED
    ∧ computeTransition false true false = .ENROLLED_TO_UNENROLLED
    ∧ computeTransition false true true = .ENROLLED_TO_ENROLLED
    ∧ computeTransition false false false = .UNENROLLED_TO_UNENROLLED
    ∧ (∀ db eid ad c p n, ad.state_transition = none →
        lastLabel (create_enrollment_audit db eid ad c p n) = some (computeTransition c p n))
    ∧ (∀ db eid ad c p n l, ad.state_transition = some l →
        lastLabel (create_enrollment_audit db eid ad c p n) = some l)
    ∧ (∀ db eid ad p n, ad.state_transition = some .ALLOWEDTOENROLL_TO_ENROLLED →
        lastLabel (create_enrollment_audit db eid ad true p n) =
          some .ALLOWEDTOENROLL_TO_ENROLLED) := by
  refine ⟨by decide, by decide, by decide, by decide, by decide, ?_, ?_, ?_⟩
  · exact fun db eid ad c p n h => lastLabel_create_enrollment_audit_none db eid ad c p n h
  · exact fun db eid ad c p n l h => lastLabel_create_enrollment_audit_some db eid ad c p n l h
  · exact fun db eid ad p n h =>
      lastLabel_create_enrollment_audit_some db eid ad true p n _ h

/-- Witness for C5: the computed label of an anonymous save and the
explicit promotion label at concrete inputs. -/
theorem c5_witness :
    lastLabel (create_enrollment_audit emptyDB 0 {} true false true) =
      some (computeTransition true false true)
    ∧ lastLabel (create_enrollment_audit emptyDB 0
        { state_transition := some .ALLOWEDTOENROLL_TO_ENROLLED } true false true) =
      some .ALLOWEDTOENROLL_TO_ENROLLED :=
  ⟨c5_transition_label_determination.2.2.2.2.2.1 emptyDB 0 {} true false true rfl,
   c5_transition_label_determination.2.2.2.2.2.2.2 emptyDB 0 _ false true rfl⟩

theorem create_enrollment_audit_eq_createRow (db : DB) (eid : Nat) (ad : AuditData)
    (c p n : Bool) (l : Label) (h : ad.state_transition = some l) :
    create_enrollment_audit db eid ad c p n = createEnrollmentAuditRow db (.enrollment eid) ad := by
  simp [create_enrollment_audit, h]

/-! ### Claim C6 -/

/-- C6 — Metadata inheritance: for every audited save (of either entity,
both going through `_create_enrollment_audit`), each of `reason`/`org`/`role`
that the caller left missing or set to the empty string is copied from the
entity's most recent existing audit row when one exists, while a non-empty
caller value is kept; in particular an enrollment whose latest audit has
`reason="R1", org="O1"`, saved with `{reason: "", org: "O2"}`, yields a new
audit row with `reason="R1"`, `org="O2"` and the inherited role. -/
theorem c6_metadata_inheritance :
    (∀ db o ad prev, latestAuditFor db o = some prev →
      (ad.reason.getD "" = "" → lastReason (createEnrollmentAuditRow db o ad) = some prev.reason)
      ∧ (∀ s, ad.reason = some s → ¬s = "" → lastReason (createEnrollmentAuditRow db o ad) = some s)
      ∧ (ad.org.getD "" = "" → lastOrg (createEnrollmentAuditRow db o ad) = some prev.org)
      ∧ (∀ s, ad.org = some s → ¬s = "" → lastOrg (createEnrollmentAuditRow db o ad) = some s)
      ∧ (ad.role.getD "" = "" → lastRole (createEnrollmentAuditRow db o ad) = some prev.role)
      ∧ (∀ s, ad.role = some s → ¬s = "" → lastRole (createEnrollmentAuditRow db o ad) = some s))
    ∧ (∀ db o ad, latestAuditFor db o = none →
        lastReason (createEnrollmentAuditRow db o ad) = some (ad.reason.getD ""))
    ∧ (∀ db eid act l eb prev,
        (db.enrollments.find? (fun x : LearningPathEnrollment => x.id == eid)).isSome = true →
        latestAuditFor db (.enrollment eid) = some prev →
        prev.reason = "R1" → prev.org = "O1" →
        lastReason (updateEnrollmentActive db eid act
          { state_transition := some l, enrolled_by := eb, reason := some "", org := some "O2" }) = some "R1"
        ∧ lastOrg (updateEnrollmentActive db eid act
          { state_transition := some l, enrolled_by := eb, reason := some "", org := some "O2" }) = some "O2"
        ∧ lastRole (updateEnrollmentActive db eid act
          { state_transition := some l, enrolled_by := eb, reason := some "", org := some "O2" }) = some prev.role) := by
  refine ⟨?_, ?_, ?_⟩
  · intro db o ad prev h
    refine ⟨?_, ?_, ?_, ?_, ?_, ?_⟩
    · intro hr
      rw [lastReason_createRow_prev db o ad prev h, if_pos hr]
    · intro s hs hne
      rw [lastReason_createRow_prev db o ad prev h, hs]
      simp [hne]
    · intro hr
      rw [lastOrg_createRow_prev db o ad prev h, if_pos hr]
    · intro s hs hne
      rw [lastOrg_createRow_prev db o ad prev h, hs]
      simp [hne]
    · intro hr
      rw [lastRole_createRow_prev db o ad prev h, if_pos hr]
    · intro s hs hne
      rw [lastRole_createRow_prev db o ad prev h, hs]
      simp [hne]
  · exact fun db o ad h => lastReason_createRow_none db o ad h
  · intro db eid act l eb prev hfind hlatest hR hO
    obtain ⟨e, he⟩ := Option.isSome_iff_exists.mp hfind
    simp only [updateEnrollmentActive, he]
    rw [create_enrollment_audit_eq_createRow _ _ _ _ _ _ l rfl]
    refine ⟨?_, ?_, ?_⟩
    · have h1 : lastReason (createEnrollmentAuditRow db (.enrollment eid)
          { state_transition := some l, enrolled_by := eb, reason := some "", org := some "O2" }) =
            some "R1" := by
        rw [lastReason_createRow_prev db _ _ prev hlatest]
        simp [hR]
      exact h1
    · have h1 : lastOrg (createEnrollmentAuditRow db (.enrollment eid)
          { state_transition := some l, enrolled_by := eb, reason := some "", org := some "O2" }) =
            some "O2" := by
        rw [lastOrg_createRow_prev db _ _ prev hlatest]
        simp
      exact h1
    · have h1 : lastRole (createEnrollmentAuditRow db (.enrollment eid)
          { state_transition := some l, enrolled_by := eb, reason := some "", org := some "O2" }) =
            some prev.role := by
        rw [lastRole_createRow_prev db _ _ prev hlatest]
        simp
      exact h1

/-- Witness for C6: the spec's R1/O1 example at a concrete store. -/
theorem c6_witness :
    lastReason (updateEnrollmentActive
      { enrollments := [⟨0, 10, 1, true⟩], alloweds := [],
        audits := [⟨1, none, some 0, none, .UNENROLLED_TO_ENROLLED, "R1", "O1", "RL"⟩],
        nextId := 2 } 0 true
      { state_transition := some .ENROLLED_TO_ENROLLED, enrolled_by := none,
        reason := some "", org := some "O2" }) = some "R1"
    ∧ lastOrg (updateEnrollmentActive
      { enrollments := [⟨0, 10, 1, true⟩], alloweds := [],
        audits := [⟨1, none, some 0, none, .UNENROLLED_TO_ENROLLED, "R1", "O1", "RL"⟩],
        nextId := 2 } 0 true
      { state_transition := some .ENROLLED_TO_ENROLLED, enrolled_by := none,
        reason := some "", org := some "O2" }) = some "O2"
    ∧ lastRole (updateEnrollmentActive
      { enrollments := [⟨0, 10, 1, true⟩], alloweds := [],
        audits := [⟨1, none, some 0, none, .UNENROLLED_TO_ENROLLED, "R1", "O1", "RL"⟩],
        nextId := 2 } 0 true
      { state_transition := some .ENROLLED_TO_ENROLLED, enrolled_by := none,
        reason := some "", org := some "O2" }) = some "RL" :=
  c6_metadata_inheritance.2.2
    { enrollments := [⟨0, 10, 1, true⟩], alloweds := [],
      audits := [⟨1, none, some 0, none, .UNENROLLED_TO_ENROLLED, "R1", "O1", "RL"⟩],
      nextId := 2 } 0 true .ENROLLED_TO_ENROLLED none
    ⟨1, none, some 0, none, .UNENROLLED_TO_ENROLLED, "R1", "O1", "RL"⟩
    (by decide) (by decide) rfl rfl

theorem create_enrollment_audit_enrollments (db : DB) (eid : Nat) (ad : AuditData)
    (c p n : Bool) : (create_enrollment_audit db eid ad c p n).enrollments = db.enrollments := by
  simp only [create_enrollment_audit]
  split <;> exact createRow_enrollments ..

theorem create_enrollment_allowed_audit_alloweds (db : DB) (aid : Nat) (ad : Option AuditData) :
    (create_enrollment_allowed_audit db aid ad).alloweds = db.alloweds := by
  cases ad with
  | none => rfl
  | some d =>
    simp only [create_enrollment_allowed_audit]
    split
    · rfl
    · exact createRow_alloweds ..

theorem saveAllowed_alloweds (db : DB) (aid : Nat) (act : Bool) (usr : Option Nat)
    (ad : Option AuditData) :
    (saveAllowed db aid act usr ad).alloweds =
      db.alloweds.map (fun x => if x.id == aid then { x with is_active := act, user := usr } else x) := by
  simp only [saveAllowed]
  rw [create_enrollment_allowed_audit_alloweds]

theorem lastLabel_updateEnrollmentActive_some (db : DB) (eid : Nat) (newA : Bool)
    (ad : AuditData) (l : Label) (e : LearningPathEnrollment)
    (he : db.enrollments.find? (fun x => x.id == eid) = some e)
    (h : ad.state_transition = some l) :
    lastLabel (updateEnrollmentActive db eid newA ad) = some l := by
  simp only [updateEnrollmentActive, he]
  exact lastLabel_create_enrollment_audit_some _ _ _ _ _ _ l h

theorem updateEnrollmentActive_enrollments (db : DB) (eid : Nat) (newA : Bool)
    (ad : AuditData) (e : LearningPathEnrollment)
    (he : db.enrollments.find? (fun x => x.id == eid) = some e) :
    (updateEnrollmentActive db eid newA ad).enrollments =
      db.enrollments.map (fun x => if x.id == eid then { x with is_active := newA } else x) := by
  simp only [updateEnrollmentActive, he]
  rw [create_enrollment_audit_enrollments]

theorem mem_map_setActive {rows : List LearningPathEnrollment} {eid : Nat} {act : Bool} :
    ∀ x ∈ rows.map (fun y => if y.id == eid then { y with is_active := act } else y),
      x.id = eid → x.is_active = act := by
  intro x hx hid
  obtain ⟨y, _, hxy⟩ := List.mem_map.mp hx
  by_cases h : (y.id == eid) = true
  · rw [if_pos h] at hxy
    rw [← hxy]
  · rw [if_neg h] at hxy
    subst hxy
    exact absurd (beq_iff_eq.mpr hid) h

theorem mem_map_setAllowed {rows : List LearningPathEnrollmentAllowed} {aid : Nat}
    {act : Bool} {usr : Option Nat} :
    ∀ x ∈ rows.map (fun y => if y.id == aid then { y with is_active := act, user := usr } else y),
      x.id = aid → x.is_active = act ∧ x.user = usr := by
  intro x hx hid
  obtain ⟨y, _, hxy⟩ := List.mem_map.mp hx
  by_cases h : (y.id == aid) = true
  · rw [if_pos h] at hxy
    rw [← hxy]
    exact ⟨rfl, rfl⟩
  · rw [if_neg h] at hxy
    subst hxy
    exact absurd (beq_iff_eq.mpr hid) h

theorem find?_id_isSome_of_findEnrollment {db : DB} {u p : Nat} {e : LearningPathEnrollment}
    (hf : findEnrollment db u p = some e) :
    (db.enrollments.find? (fun x => x.id == e.id)).isSome = true := by
  have hmem : e ∈ db.enrollments := List.mem_of_find?_eq_some hf
  rw [List.find?_isSome]
  exact ⟨e, hmem, by simp⟩

/-! ### Claim C4 -/

/-- C4 — Bulk-enroll counting: a (path, user) pair is counted in
`enrollments_created` exactly when its enrollment was newly created or
reactivated from inactive (both audited `UNENROLLED_TO_ENROLLED`), while an
already-active enrollment is re-saved with an `ENROLLED_TO_ENROLLED` audit
row and not counted; a (path, email) pair is counted in
`enrollment_allowed_created` exactly when its allowed-record was newly
created or was previously both un-owned and inactive; the spec scenario
(2 valid paths × 2 existing never-enrolled users + 1 valid new email)
returns counts (4, 2) with exactly 6 audit rows. -/
theorem c4_bulk_enroll_counting :
    (∀ db m p u, findEnrollment db u p = none →
      (bulkEnrollUserStep db m p u).2 = 1
      ∧ (bulkEnrollUserStep db m p u).1.audits.length = db.audits.length + 1
      ∧ lastLabel (bulkEnrollUserStep db m p u).1 = some .UNENROLLED_TO_ENROLLED)
    ∧ (∀ db m p u e, findEnrollment db u p = some e → e.is_active = false →
      (bulkEnrollUserStep db m p u).2 = 1
      ∧ (bulkEnrollUserStep db m p u).1.audits.length = db.audits.length + 1
      ∧ lastLabel (bulkEnrollUserStep db m p u).1 = some .UNENROLLED_TO_ENROLLED
      ∧ ∀ x ∈ (bulkEnrollUserStep db m p u).1.enrollments, x.id = e.id → x.is_active = true)
    ∧ (∀ db m p u e, findEnrollment db u p = some e → e.is_active = true →
      (bulkEnrollUserStep db m p u).2 = 0
      ∧ (bulkEnrollUserStep db m p u).1.audits.length = db.audits.length + 1
      ∧ lastLabel (bulkEnrollUserStep db m p u).1 = some .ENROLLED_TO_ENROLLED)
    ∧ (∀ db m v p email, v email = true → findAllowed db email p = none →
      (bulkEnrollEmailStep db m v p email).2 = 1
      ∧ (bulkEnrollEmailStep db m v p email).1.audits.length = db.audits.length + 1
      ∧ lastLabel (bulkEnrollEmailStep db m v p email).1 = some .UNENROLLED_TO_ALLOWEDTOENROLL)
    ∧ (∀ db m v p email a, v email = true → findAllowed db email p = some a →
      a.user = none → a.is_active = false →
      (bulkEnrollEmailStep db m v p email).2 = 1
      ∧ ∀ x ∈ (bulkEnrollEmailStep db m v p email).1.alloweds, x.id = a.id → x.is_active = true)
    ∧ (∀ db m v p email a, v email = true → findAllowed db email p = some a →
      (a.user.isSome = true ∨ a.is_active = true) →
      (bulkEnrollEmailStep db m v p email).2 = 0
      ∧ (bulkEnrollEmailStep db m v p email).1.audits.length = db.audits.length + 1
      ∧ lastLabel (bulkEnrollEmailStep db m v p email).1 = some .UNENROLLED_TO_ALLOWEDTOENROLL)
    ∧ ((bulk_enroll emptyDB ⟨some 99, "Bulk enrollment for new cohort", "org", "student"⟩
        (fun _ => true) [1, 2] [10, 11] ["new@x.com"]).2.1 = 4
      ∧ (bulk_enroll emptyDB ⟨some 99, "Bulk enrollment for new cohort", "org", "student"⟩
        (fun _ => true) [1, 2] [10, 11] ["new@x.com"]).2.2 = 2
      ∧ (bulk_enroll emptyDB ⟨some 99, "Bulk enrollment for new cohort", "org", "student"⟩
        (fun _ => true) [1, 2] [10, 11] ["new@x.com"]).1.audits.length = 6) := by
  refine ⟨?_, ?_, ?_, ?_, ?_, ?_, by decide⟩
  · intro db m p u hf
    cases hins : insertEnrollment db u p true (bulkAuditData m .UNENROLLED_TO_ENROLLED) with
    | none =>
      exfalso
      simp [insertEnrollment, hf] at hins
    | some r =>
      obtain ⟨db2, eid⟩ := r
      obtain ⟨hdb2, -, -⟩ := insertEnrollment_eq_some db u p true _ db2 eid hins
      have hstep : bulkEnrollUserStep db m p u = (db2, 1) := by
        simp only [bulkEnrollUserStep, hf, hins]
      rw [hstep]
      subst hdb2
      refine ⟨rfl, ?_, ?_⟩
      · exact create_enrollment_audit_audits_length ..
      · exact lastLabel_create_enrollment_audit_some _ _ _ _ _ _ _ rfl
  · intro db m p u e hf hact
    have hstep : bulkEnrollUserStep db m p u =
        (updateEnrollmentActive db e.id true (bulkAuditData m .UNENROLLED_TO_ENROLLED), 1) := by
      simp [bulkEnrollUserStep, hf, hact]
    rw [hstep]
    refine ⟨rfl, ?_, ?_, ?_⟩
    · exact updateEnrollmentActive_audits_length db e.id true _ (find?_id_isSome_of_findEnrollment hf)
    · obtain ⟨e2, he2⟩ := Option.isSome_iff_exists.mp (find?_id_isSome_of_findEnrollment hf)
      exact lastLabel_updateEnrollmentActive_some db e.id true _ _ e2 he2 rfl
    · obtain ⟨e2, he2⟩ := Option.isSome_iff_exists.mp (find?_id_isSome_of_findEnrollment hf)
      rw [updateEnrollmentActive_enrollments db e.id true _ e2 he2]
      exact mem_map_setActive
  · intro db m p u e hf hact
    have hstep : bulkEnrollUserStep db m p u =
        (updateEnrollmentActive db e.id true (bulkAuditData m .ENROLLED_TO_ENROLLED), 0) := by
      simp [bulkEnrollUserStep, hf, hact]
    rw [hstep]
    refine ⟨rfl, ?_, ?_⟩
    · exact updateEnrollmentActive_audits_length db e.id true _ (find?_id_isSome_of_findEnrollment hf)
    · obtain ⟨e2, he2⟩ := Option.isSome_iff_exists.mp (find?_id_isSome_of_findEnrollment hf)
      exact lastLabel_updateEnrollmentActive_some db e.id true _ _ e2 he2 rfl
  · intro db m v p email hv hfa
    have hstep : bulkEnrollEmailStep db m v p email =
        (saveAllowed
          { db with alloweds := db.alloweds ++ [⟨db.nextId, email, p, none, true⟩], nextId := db.nextId + 1 }
          db.nextId true none (some (bulkAuditData m .UNENROLLED_TO_ALLOWEDTOENROLL)), 1) := by
      simp [bulkEnrollEmailStep, getOrCreateAllowed, hv, hfa]
    rw [hstep]
    refine ⟨rfl, ?_, ?_⟩
    · exact saveAllowed_audits_length _ _ _ _ _ rfl
    · exact lastLabel_saveAllowed_some _ _ _ _ _ _ rfl rfl
  · intro db m v p email a hv hfa huser hinact
    have hstep : bulkEnrollEmailStep db m v p email =
        (saveAllowed db a.id true none (some (bulkAuditData m .UNENROLLED_TO_ALLOWEDTOENROLL)), 1) := by
      simp [bulkEnrollEmailStep, getOrCreateAllowed, hv, hfa, huser, hinact]
    rw [hstep]
    refine ⟨rfl, ?_⟩
    intro x hx hid
    rw [saveAllowed_alloweds] at hx
    exact (mem_map_setAllowed x hx hid).1
  · intro db m v p email a hv hfa hcase
    have hcount : (a.user.isNone && !a.is_active) = false := by
      rcases hcase with h | h
      · cases hu : a.user with
        | none => rw [hu] at h; simp at h
        | some w => simp [hu]
      · simp [h]
    have hstep : bulkEnrollEmailStep db m v p email =
        (saveAllowed db a.id a.is_active a.user (some (bulkAuditData m .UNENROLLED_TO_ALLOWEDTOENROLL)), 0) := by
      simp [bulkEnrollEmailStep, getOrCreateAllowed, hv, hfa, hcount]
    rw [hstep]
    refine ⟨rfl, ?_, ?_⟩
    · exact saveAllowed_audits_length _ _ _ _ _ rfl
    · exact lastLabel_saveAllowed_some _ _ _ _ _ _ rfl rfl

/-- Witness for C4: a never-enrolled user and an owned inactive
allowed-record at concrete stores. -/
theorem c4_witness :
    ((bulkEnrollUserStep emptyDB ⟨none, "", "", ""⟩ 1 10).2 = 1
      ∧ (bulkEnrollUserStep emptyDB ⟨none, "", "", ""⟩ 1 10).1.audits.length = emptyDB.audits.length + 1
      ∧ lastLabel (bulkEnrollUserStep emptyDB ⟨none, "", "", ""⟩ 1 10).1 = some .UNENROLLED_TO_ENROLLED)
    ∧ ((bulkEnrollEmailStep
        { enrollments := [], alloweds := [⟨0, "x@y.com", 1, some 5, true⟩], audits := [], nextId := 1 }
        ⟨none, "", "", ""⟩ (fun _ => true) 1 "x@y.com").2 = 0
      ∧ (bulkEnrollEmailStep
        { enrollments := [], alloweds := [⟨0, "x@y.com", 1, some 5, true⟩], audits := [], nextId := 1 }
        ⟨none, "", "", ""⟩ (fun _ => true) 1 "x@y.com").1.audits.length =
          ({ enrollments := [], alloweds := [⟨0, "x@y.com", 1, some 5, true⟩], audits := [], nextId := 1 } : DB).audits.length + 1
      ∧ lastLabel (bulkEnrollEmailStep
        { enrollments := [], alloweds := [⟨0, "x@y.com", 1, some 5, true⟩], audits := [], nextId := 1 }
        ⟨none, "", "", ""⟩ (fun _ => true) 1 "x@y.com").1 = some .UNENROLLED_TO_ALLOWEDTOENROLL) :=
  ⟨c4_bulk_enroll_counting.1 emptyDB ⟨none, "", "", ""⟩ 1 10 rfl,
   c4_bulk_enroll_counting.2.2.2.2.2.1
    { enrollments := [], alloweds := [⟨0, "x@y.com", 1, some 5, true⟩], audits := [], nextId := 1 }
    ⟨none, "", "", ""⟩ (fun _ => true) 1 "x@y.com" ⟨0, "x@y.com", 1, some 5, true⟩
    rfl (by decide) (Or.inl rfl)⟩

/-! ### Claim C8 -/

/-- C8 — Bulk-unenroll mixed state: an active enrollment is deactivated
with an `ENROLLED_TO_UNENROLLED` audit row and counted; an already-inactive
enrollment is re-saved with an `UNENROLLED_TO_UNENROLLED` audit row and not
counted; an active allowed-record is deactivated with
`ALLOWEDTOENROLL_TO_UNENROLLED` and counted; an inactive allowed-record is
re-saved as an audited no-op rather than skipped; the spec scenario
(3 active + 1 inactive enrollments, 1 active + 1 inactive allowed-records)
yields counts (3, 1). -/
theorem c8_bulk_unenroll_mixed_state :
    (∀ db m p u e, findEnrollment db u p = some e → e.is_active = true →
      (bulkUnenrollUserStep db m p u).2 = 1
      ∧ (bulkUnenrollUserStep db m p u).1.audits.length = db.audits.length + 1
      ∧ lastLabel (bulkUnenrollUserStep db m p u).1 = some .ENROLLED_TO_UNENROLLED
      ∧ ∀ x ∈ (bulkUnenrollUserStep db m p u).1.enrollments, x.id = e.id → x.is_active = false)
    ∧ (∀ db m p u e, findEnrollment db u p = some e → e.is_active = false →
      (bulkUnenrollUserStep db m p u).2 = 0
      ∧ (bulkUnenrollUserStep db m p u).1.audits.length = db.audits.length + 1
      ∧ lastLabel (bulkUnenrollUserStep db m p u).1 = some .UNENROLLED_TO_UNENROLLED)
    ∧ (∀ db m v p email a, v email = true → findAllowed db email p = some a →
      a.is_active = true →
      (bulkUnenrollEmailStep db m v p email).2 = 1
      ∧ (bulkUnenrollEmailStep db m v p email).1.audits.length = db.audits.length + 1
      ∧ lastLabel (bulkUnenrollEmailStep db m v p email).1 = some .ALLOWEDTOENROLL_TO_UNENROLLED
      ∧ ∀ x ∈ (bulkUnenrollEmailStep db m v p email).1.alloweds, x.id = a.id → x.is_active = false)
    ∧ (∀ db m v p email a, v email = true → findAllowed db email p = some a →
      a.is_active = false →
      (bulkUnenrollEmailStep db m v p email).2 = 0
      ∧ (bulkUnenrollEmailStep db m v p email).1.audits.length = db.audits.length + 1
      ∧ lastLabel (bulkUnenrollEmailStep db m v p email).1 = some .UNENROLLED_TO_UNENROLLED)
    ∧ ((bulk_unenroll
        { enrollments := [⟨0, 10, 1, true⟩, ⟨1, 11, 1, true⟩, ⟨2, 12, 1, true⟩, ⟨3, 13, 1, false⟩],
          alloweds := [⟨4, "e1@x.com", 1, none, true⟩, ⟨5, "e2@x.com", 1, none, false⟩],
          audits := [], nextId := 6 }
        ⟨some 99, "End of semester cleanup", "org", "student"⟩ (fun _ => true)
        [1] [10, 11, 12, 13] ["e1@x.com", "e2@x.com"]).2.1 = 3
      ∧ (bulk_unenroll
        { enrollments := [⟨0, 10, 1, true⟩, ⟨1, 11, 1, true⟩, ⟨2, 12, 1, true⟩, ⟨3, 13, 1, false⟩],
          alloweds := [⟨4, "e1@x.com", 1, none, true⟩, ⟨5, "e2@x.com", 1, none, false⟩],
          audits := [], nextId := 6 }
        ⟨some 99, "End of semester cleanup", "org", "student"⟩ (fun _ => true)
        [1] [10, 11, 12, 13] ["e1@x.com", "e2@x.com"]).2.2 = 1
      ∧ ((bulk_unenroll
        { enrollments := [⟨0, 10, 1, true⟩, ⟨1, 11, 1, true⟩, ⟨2, 12, 1, true⟩, ⟨3, 13, 1, false⟩],
          alloweds := [⟨4, "e1@x.com", 1, none, true⟩, ⟨5, "e2@x.com", 1, none, false⟩],
          audits := [], nextId := 6 }
        ⟨some 99, "End of semester cleanup", "org", "student"⟩ (fun _ => true)
        [1] [10, 11, 12, 13] ["e1@x.com", "e2@x.com"]).1.audits.map (fun a => a.state_transition)) =
        [.ENROLLED_TO_UNENROLLED, .ENROLLED_TO_UNENROLLED, .ENROLLED_TO_UNENROLLED,
         .UNENROLLED_TO_UNENROLLED, .ALLOWEDTOENROLL_TO_UNENROLLED, .UNENROLLED_TO_UNENROLLED]) := by
  refine ⟨?_, ?_, ?_, ?_, by decide⟩
  · intro db m p u e hf hact
    have hstep : bulkUnenrollUserStep db m p u =
        (updateEnrollmentActive db e.id false (bulkAuditData m .ENROLLED_TO_UNENROLLED), 1) := by
      simp [bulkUnenrollUserStep, hf, hact]
    rw [hstep]
    refine ⟨rfl, ?_, ?_, ?_⟩
    · exact updateEnrollmentActive_audits_length db e.id false _ (find?_id_isSome_of_findEnrollment hf)
    · obtain ⟨e2, he2⟩ := Option.isSome_iff_exists.mp (find?_id_isSome_of_findEnrollment hf)
      exact lastLabel_updateEnrollmentActive_some db e.id false _ _ e2 he2 rfl
    · obtain ⟨e2, he2⟩ := Option.isSome_iff_exists.mp (find?_id_isSome_of_findEnrollment hf)
      rw [updateEnrollmentActive_enrollments db e.id false _ e2 he2]
      exact mem_map_setActive
  · intro db m p u e hf hact
    have hstep : bulkUnenrollUserStep db m p u =
        (updateEnrollmentActive db e.id false (bulkAuditData m .UNENROLLED_TO_UNENROLLED), 0) := by
      simp [bulkUnenrollUserStep, hf, hact]
    rw [hstep]
    refine ⟨rfl, ?_, ?_⟩
    · exact updateEnrollmentActive_audits_length db e.id false _ (find?_id_isSome_of_findEnrollment hf)
    · obtain ⟨e2, he2⟩ := Option.isSome_iff_exists.mp (find?_id_isSome_of_findEnrollment hf)
      exact lastLabel_updateEnrollmentActive_some db e.id false _ _ e2 he2 rfl
  · intro db m v p email a hv hfa hact
    have hstep : bulkUnenrollEmailStep db m v p email =
        (saveAllowed db a.id false a.user (some (bulkAuditData m .ALLOWEDTOENROLL_TO_UNENROLLED)), 1) := by
      simp [bulkUnenrollEmailStep, hv, hfa, hact]
    rw [hstep]
    refine ⟨rfl, ?_, ?_, ?_⟩
    · exact saveAllowed_audits_length _ _ _ _ _ rfl
    · exact lastLabel_saveAllowed_some _ _ _ _ _ _ rfl rfl
    · intro x hx hid
      rw [saveAllowed_alloweds] at hx
      exact (mem_map_setAllowed x hx hid).1
  · intro db m v p email a hv hfa hact
    have hstep : bulkUnenrollEmailStep db m v p email =
        (saveAllowed db a.id false a.user (some (bulkAuditData m .UNENROLLED_TO_UNENROLLED)), 0) := by
      simp [bulkUnenrollEmailStep, hv, hfa, hact]
    rw [hstep]
    refine ⟨rfl, ?_, ?_⟩
    · exact saveAllowed_audits_length _ _ _ _ _ rfl
    · exact lastLabel_saveAllowed_some _ _ _ _ _ _ rfl rfl

/-- Witness for C8: one active and one inactive enrollment at a concrete
store. -/
theorem c8_witness :
    ((bulkUnenrollUserStep { enrollments := [⟨0, 10, 1, true⟩], alloweds := [], audits := [], nextId := 1 }
        ⟨none, "", "", ""⟩ 1 10).2 = 1
      ∧ (bulkUnenrollUserStep { enrollments := [⟨0, 10, 1, true⟩], alloweds := [], audits := [], nextId := 1 }
        ⟨none, "", "", ""⟩ 1 10).1.audits.length =
        ({ enrollments := [⟨0, 10, 1, true⟩], alloweds := [], audits := [], nextId := 1 } : DB).audits.length + 1
      ∧ lastLabel (bulkUnenrollUserStep { enrollments := [⟨0, 10, 1, true⟩], alloweds := [], audits := [], nextId := 1 }
        ⟨none, "", "", ""⟩ 1 10).1 = some .ENROLLED_TO_UNENROLLED
      ∧ ∀ x ∈ (bulkUnenrollUserStep { enrollments := [⟨0, 10, 1, true⟩], alloweds := [], audits := [], nextId := 1 }
        ⟨none, "", "", ""⟩ 1 10).1.enrollments,
        x.id = (⟨0, 10, 1, true⟩ : LearningPathEnrollment).id → x.is_active = false)
    ∧ ((bulkUnenrollUserStep { enrollments := [⟨0, 10, 1, false⟩], alloweds := [], audits := [], nextId := 1 }
        ⟨none, "", "", ""⟩ 1 10).2 = 0
      ∧ (bulkUnenrollUserStep { enrollments := [⟨0, 10, 1, false⟩], alloweds := [], audits := [], nextId := 1 }
        ⟨none, "", "", ""⟩ 1 10).1.audits.length =
        ({ enrollments := [⟨0, 10, 1, false⟩], alloweds := [], audits := [], nextId := 1 } : DB).audits.length + 1
      ∧ lastLabel (bulkUnenrollUserStep { enrollments := [⟨0, 10, 1, false⟩], alloweds := [], audits := [], nextId := 1 }
        ⟨none, "", "", ""⟩ 1 10).1 = some .UNENROLLED_TO_UNENROLLED) :=
  ⟨c8_bulk_unenroll_mixed_state.1
    { enrollments := [⟨0, 10, 1, true⟩], alloweds := [], audits := [], nextId := 1 }
    ⟨none, "", "", ""⟩ 1 10 ⟨0, 10, 1, true⟩ rfl rfl,
   c8_bulk_unenroll_mixed_state.2.1
    { enrollments := [⟨0, 10, 1, false⟩], alloweds := [], audits := [], nextId := 1 }
    ⟨none, "", "", ""⟩ 1 10 ⟨0, 10, 1, false⟩ rfl rfl⟩

/-! ### Claim C10 -/

/-- C10 — Bulk-enroll edge case: for an accountless email whose
allowed-record already exists, is inactive, and has a user reference
attached, `BulkEnrollView.post` leaves the row inactive, does not count it
in `enrollment_allowed_created`, and still re-saves it with explicit
metadata so that one `UNENROLLED_TO_ALLOWEDTOENROLL` audit row is
appended. -/
theorem c10_owned_inactive_allowed_resaved (db : DB) (m : BulkMeta) (v : String → Bool)
    (p : Nat) (email : String) (a : LearningPathEnrollmentAllowed) (uid : Nat)
    (hv : v email = true) (hfa : findAllowed db email p = some a)
    (hinact : a.is_active = false) (huser : a.user = some uid) :
    (bulkEnrollEmailStep db m v p email).2 = 0
    ∧ (∀ x ∈ (bulkEnrollEmailStep db m v p email).1.alloweds,
        x.id = a.id → x.is_active = false ∧ x.user = some uid)
    ∧ (bulkEnrollEmailStep db m v p email).1.audits.length = db.audits.length + 1
    ∧ lastLabel (bulkEnrollEmailStep db m v p email).1 = some .UNENROLLED_TO_ALLOWEDTOENROLL := by
  have hcount : (a.user.isNone && !a.is_active) = false := by simp [huser]
  have hstep : bulkEnrollEmailStep db m v p email =
      (saveAllowed db a.id a.is_active a.user (some (bulkAuditData m .UNENROLLED_TO_ALLOWEDTOENROLL)), 0) := by
    simp [bulkEnrollEmailStep, getOrCreateAllowed, hv, hfa, hcount]
  rw [hstep]
  refine ⟨rfl, ?_, ?_, ?_⟩
  · intro x hx hid
    rw [saveAllowed_alloweds] at hx
    have hset := mem_map_setAllowed x hx hid
    exact ⟨hset.1.trans hinact, hset.2.trans huser⟩
  · exact saveAllowed_audits_length _ _ _ _ _ rfl
  · exact lastLabel_saveAllowed_some _ _ _ _ _ _ rfl rfl

/-- Witness for C10 at a concrete store. -/
theorem c10_witness :
    (bulkEnrollEmailStep
      { enrollments := [], alloweds := [⟨0, "x@y.com", 1, some 5, false⟩], audits := [], nextId := 1 }
      ⟨none, "", "", ""⟩ (fun _ => true) 1 "x@y.com").2 = 0
    ∧ (∀ x ∈ (bulkEnrollEmailStep
      { enrollments := [], alloweds := [⟨0, "x@y.com", 1, some 5, false⟩], audits := [], nextId := 1 }
      ⟨none, "", "", ""⟩ (fun _ => true) 1 "x@y.com").1.alloweds,
        x.id = (⟨0, "x@y.com", 1, some 5, false⟩ : LearningPathEnrollmentAllowed).id →
          x.is_active = false ∧ x.user = some 5)
    ∧ (bulkEnrollEmailStep
      { enrollments := [], alloweds := [⟨0, "x@y.com", 1, some 5, false⟩], audits := [], nextId := 1 }
      ⟨none, "", "", ""⟩ (fun _ => true) 1 "x@y.com").1.audits.length =
      ({ enrollments := [], alloweds := [⟨0, "x@y.com", 1, some 5, false⟩], audits := [], nextId := 1 } : DB).audits.length + 1
    ∧ lastLabel (bulkEnrollEmailStep
      { enrollments := [], alloweds := [⟨0, "x@y.com", 1, some 5, false⟩], audits := [], nextId := 1 }
      ⟨none, "", "", ""⟩ (fun _ => true) 1 "x@y.com").1 = some .UNENROLLED_TO_ALLOWEDTOENROLL :=
  c10_owned_inactive_allowed_resaved
    { enrollments := [], alloweds := [⟨0, "x@y.com", 1, some 5, false⟩], audits := [], nextId := 1 }
    ⟨none, "", "", ""⟩ (fun _ => true) 1 "x@y.com" ⟨0, "x@y.com", 1, some 5, false⟩ 5
    rfl (by decide) rfl rfl

/-! ### Claim C9 -/

theorem deletionMemberStep_spec (host : Nat → HostResult) (asg : GroupCourseAssignmentRec)
    (s : DeletionOutcome) (u : Nat) :
    (deletionMemberStep host asg s u).calls = s.calls ++ [(u, asg.course_id)]
    ∧ ∃ row, (deletionMemberStep host asg s u).audits = s.audits ++ [row]
        ∧ row.assignment = none ∧ row.reason = deletionReason asg.groupName asg.course_id := by
  cases h : host u with
  | ok success =>
    refine ⟨by simp [deletionMemberStep, h], ?_⟩
    exact ⟨{ assignment := none, user := some u, enrolled_by := none,
             status := if success then .SUCCESS else .SKIPPED, error_message := "",
             reason := deletionReason asg.groupName asg.course_id },
           by simp [deletionMemberStep, h], rfl, rfl⟩
  | raised msg =>
    refine ⟨by simp [deletionMemberStep, h], ?_⟩
    exact ⟨{ assignment := none, user := some u, enrolled_by := none,
             status := .FAILED, error_message := msg,
             reason := deletionReason asg.groupName asg.course_id },
           by simp [deletionMemberStep, h], rfl, rfl⟩

theorem deletion_foldl_spec (host : Nat → HostResult) (asg : GroupCourseAssignmentRec)
    (members : List Nat) (s : DeletionOutcome) :
    (members.foldl (deletionMemberStep host asg) s).calls =
      s.calls ++ members.map (fun u => (u, asg.course_id))
    ∧ (members.foldl (deletionMemberStep host asg) s).audits.length =
      s.audits.length + members.length
    ∧ ∀ a ∈ (members.foldl (deletionMemberStep host asg) s).audits,
        a ∈ s.audits ∨ (a.assignment = none ∧ a.reason = deletionReason asg.groupName asg.course_id) := by
  induction members generalizing s with
  | nil => exact ⟨by simp, by simp, fun a ha => Or.inl ha⟩
  | cons u us ih =>
    obtain ⟨hcalls, row, haudits, hassign, hreason⟩ := deletionMemberStep_spec host asg s u
    obtain ⟨ih1, ih2, ih3⟩ := ih (deletionMemberStep host asg s u)
    refine ⟨?_, ?_, ?_⟩
    · rw [List.foldl_cons, ih1, hcalls, List.append_assoc]
      rfl
    · rw [List.foldl_cons, ih2, haudits]
      simp [Nat.add_assoc, Nat.add_comm 1 us.length]
    · intro a ha
      rcases ih3 a (by rwa [List.foldl_cons] at ha) with hmem | hprop
      · rw [haudits] at hmem
        rcases List.mem_append.mp hmem with hmem2 | hrow
        · exact Or.inl hmem2
        · right
          rw [List.mem_singleton.mp hrow]
          exact ⟨hassign, hreason⟩
      · exact Or.inr hprop

/-- C9 — Assignment-deletion audit: deleting a `GroupCourseAssignment`
triggers, for every current group member, exactly one host unenroll call
for the assignment's course and exactly one `GroupCourseEnrollmentAudit`
row with a null assignment reference and a reason string containing the
group name and the course id (so 3 members yield exactly 3 rows). -/
theorem c9_assignment_deletion_audit (host : Nat → HostResult)
    (asg : GroupCourseAssignmentRec) (members : List Nat) :
    (auto_unenroll_on_assignment_deletion host asg members).calls =
      members.map (fun u => (u, asg.course_id))
    ∧ (auto_unenroll_on_assignment_deletion host asg members).audits.length = members.length
    ∧ ∀ a ∈ (auto_unenroll_on_assignment_deletion host asg members).audits,
        a.assignment = none
        ∧ (∃ s1 s2, a.reason = s1 ++ asg.groupName ++ s2)
        ∧ (∃ s1 s2, a.reason = s1 ++ asg.course_id ++ s2) := by
  obtain ⟨h1, h2, h3⟩ := deletion_foldl_spec host asg members { calls := [], audits := [] }
  refine ⟨by simpa using h1, by simpa using h2, ?_⟩
  intro a ha
  rcases h3 a ha with hmem | ⟨hassign, hreason⟩
  · simp at hmem
  · refine ⟨hassign, ?_, ?_⟩
    · exact ⟨"Auto-unenrollment due to deletion of group-course assignment: ",
        " → " ++ asg.course_id, by rw [hreason, deletionReason, String.append_assoc]⟩
    · exact ⟨"Auto-unenrollment due to deletion of group-course assignment: " ++ asg.groupName ++ " → ",
        "", by rw [hreason, deletionReason, String.append_empty]⟩

/-- Witness for C9: a three-member group whose host calls succeed, fail and
raise respectively. -/
theorem c9_witness :
    (auto_unenroll_on_assignment_deletion
      (fun u => if u == 3 then .raised "boom" else .ok (u == 1))
      ⟨0, 1, "G", "course-v1:X+Y+Z", "audit", true, true⟩ [1, 2, 3]).calls =
      [1, 2, 3].map (fun u => (u, ("course-v1:X+Y+Z" : String)))
    ∧ (auto_unenroll_on_assignment_deletion
      (fun u => if u == 3 then .raised "boom" else .ok (u == 1))
      ⟨0, 1, "G", "course-v1:X+Y+Z", "audit", true, true⟩ [1, 2, 3]).audits.length = [1, 2, 3].length
    ∧ ∀ a ∈ (auto_unenroll_on_assignment_deletion
      (fun u => if u == 3 then .raised "boom" else .ok (u == 1))
      ⟨0, 1, "G", "course-v1:X+Y+Z", "audit", true, true⟩ [1, 2, 3]).audits,
        a.assignment = none
        ∧ (∃ s1 s2, a.reason = s1 ++ "G" ++ s2)
        ∧ (∃ s1 s2, a.reason = s1 ++ "course-v1:X+Y+Z" ++ s2) :=
  c9_assignment_deletion_audit
    (fun u => if u == 3 then .raised "boom" else .ok (u == 1))
    ⟨0, 1, "G", "course-v1:X+Y+Z", "audit", true, true⟩ [1, 2, 3]

/-! ### Claim C7 -/

/-- C7 — Evaluation of `auto_enroll_on_group_membership_change` at the
claim's failing input: when the host enroll call raises on the very first
(assignment, user) pair, the `except` block's reads of the still-unbound
function locals `operation` and `reason` raise `UnboundLocalError` out of
the reconciler — no FAILED audit row is written and the batch aborts,
contradicting the claimed containment.  When an earlier pair has already
bound the locals, the handler does catch the exception and writes the
FAILED row (with the previous pair's `reason`), which is the behavior the
claim describes. -/
theorem c7_first_pair_raise_escapes :
    auto_enroll_on_group_membership_change true (fun _ _ => .raised "boom")
      [⟨0, 1, "G", "course-v1:X+Y+Z", "audit", true, true⟩] [5] = .error "UnboundLocalError"
    ∧ auto_enroll_on_group_membership_change true
        (fun _ u => if u == 5 then .ok true else .raised "boom")
        [⟨0, 1, "G", "course-v1:X+Y+Z", "audit", true, true⟩] [5, 6] =
      .ok { audits :=
              [⟨some 0, some 5, some 5, .SUCCESS, "", "Auto-enrollment via group membership in G"⟩,
               ⟨some 0, some 6, some 6, .FAILED, "boom", "Auto-enrollment via group membership in G"⟩],
            reasonVar := some "Auto-enrollment via group membership in G",
            operationVar := some "enroll", successCount := 1, failedCount := 1 } := by
  exact ⟨rfl, rfl⟩

theorem pendingAuditData_label (db : DB) (u : UserAccount)
    (entry : LearningPathEnrollmentAllowed) :
    (pendingAuditData db u entry).state_transition = some .ALLOWEDTOENROLL_TO_ENROLLED := by
  simp only [pendingAuditData]
  split <;> rfl

theorem pendingAuditData_enrolled_by (db : DB) (u : UserAccount)
    (entry : LearningPathEnrollmentAllowed) :
    (pendingAuditData db u entry).enrolled_by = some u.id := by
  simp only [pendingAuditData]
  split <;> rfl

theorem create_enrollment_allowed_audit_enrollments (db : DB) (aid : Nat)
    (ad : Option AuditData) :
    (create_enrollment_allowed_audit db aid ad).enrollments = db.enrollments := by
  cases ad with
  | none => rfl
  | some d =>
    simp only [create_enrollment_allowed_audit]
    split
    · rfl
    · rfl

theorem saveAllowed_enrollments (db : DB) (aid : Nat) (act : Bool) (usr : Option Nat)
    (ad : Option AuditData) :
    (saveAllowed db aid act usr ad).enrollments = db.enrollments := by
  simp only [saveAllowed]
  rw [create_enrollment_allowed_audit_enrollments]

/-! ### Claim C2 -/

theorem create_enrollment_audit_alloweds (db : DB) (eid : Nat) (ad : AuditData)
    (c p n : Bool) : (create_enrollment_audit db eid ad c p n).alloweds = db.alloweds := by
  simp only [create_enrollment_audit]
  split <;> exact createRow_alloweds ..

theorem builtAuditRow_allowed_ref_of_enrollment (db : DB) (i : Nat) (ad : AuditData) :
    (builtAuditRow db (.enrollment i) ad).enrollment_allowed = none := rfl

theorem insertEnrollment_none_of_found (db : DB) (u p : Nat) (act : Bool) (ad : AuditData)
    (e2 : LearningPathEnrollment) (hf : findEnrollment db u p = some e2) :
    insertEnrollment db u p act ad = none := by
  simp [insertEnrollment, hf]

/-- Row-level effect of one resolver iteration on the allowed table: the
`finally` clause always re-saves the entry deactivated with the user
attached, and nothing else in the iteration touches allowed rows. -/
theorem resolveOneAllowed_alloweds (s : DB) (u : UserAccount)
    (entry : LearningPathEnrollmentAllowed) :
    (resolveOneAllowed s u entry).alloweds =
      s.alloweds.map (fun x => if x.id == entry.id then { x with is_active := false, user := some u.id } else x) := by
  unfold resolveOneAllowed
  rw [saveAllowed_alloweds]
  congr 1
  split
  · next db2 eid heq =>
    obtain ⟨hdb2, -, -⟩ := insertEnrollment_eq_some _ _ _ _ _ _ _ heq
    show db2.alloweds = s.alloweds
    rw [hdb2, create_enrollment_audit_alloweds]
  · rfl

/-- Row-level effect of one resolver iteration when an enrollment for
(user, entry's path) already exists: the INSERT raises `IntegrityError`,
so the enrollment and audit tables are untouched (only the `finally`
re-save of the entry happens). -/
theorem resolveOneAllowed_skip (s : DB) (u : UserAccount)
    (entry : LearningPathEnrollmentAllowed) (e2 : LearningPathEnrollment)
    (hf : findEnrollment s u.id entry.learning_path = some e2) :
    (resolveOneAllowed s u entry).enrollments = s.enrollments
    ∧ (resolveOneAllowed s u entry).audits = s.audits := by
  have hins := insertEnrollment_none_of_found s u.id entry.learning_path true
    (pendingAuditData s u entry) e2 hf
  have hres : resolveOneAllowed s u entry = saveAllowed s entry.id false (some u.id) none := by
    simp only [resolveOneAllowed, hins]
  rw [hres]
  exact ⟨saveAllowed_enrollments s entry.id false (some u.id) none,
    saveAllowed_audits_none s entry.id false (some u.id)⟩

/-- Row-level effect of one resolver iteration when no enrollment for
(user, entry's path) exists: one fresh active enrollment row, the entry's
audits re-parented onto it, and one new `ALLOWEDTOENROLL_TO_ENROLLED`
audit row appended. -/
theorem resolveOneAllowed_promote (s : DB) (u : UserAccount)
    (entry : LearningPathEnrollmentAllowed)
    (h : findEnrollment s u.id entry.learning_path = none) :
    (resolveOneAllowed s u entry).enrollments =
      s.enrollments ++ [⟨s.nextId, u.id, entry.learning_path, true⟩]
    ∧ (resolveOneAllowed s u entry).audits =
      (s.audits.map (fun a => if a.enrollment_allowed == some entry.id then { a with enrollment := some s.nextId } else a))
      ++ [builtAuditRow { s with enrollments := s.enrollments ++ [⟨s.nextId, u.id, entry.learning_path, true⟩], nextId := s.nextId + 1 } (.enrollment s.nextId) (pendingAuditData s u entry)] := by
  cases hins : insertEnrollment s u.id entry.learning_path true (pendingAuditData s u entry) with
  | none =>
    exfalso
    simp [insertEnrollment, h] at hins
  | some r =>
    obtain ⟨db2, eid⟩ := r
    obtain ⟨hdb2, heid, -⟩ := insertEnrollment_eq_some _ _ _ _ _ _ _ hins
    subst heid
    have hres : resolveOneAllowed s u entry =
        saveAllowed { db2 with audits := db2.audits.map (fun a => if a.enrollment_allowed == some entry.id then { a with enrollment := some s.nextId } else a) } entry.id false (some u.id) none := by
      simp only [resolveOneAllowed, hins]
    have hdb2enr : db2.enrollments = s.enrollments ++ [⟨s.nextId, u.id, entry.learning_path, true⟩] := by
      rw [hdb2, create_enrollment_audit_enrollments]
    have hdb2aud : db2.audits = s.audits ++ [builtAuditRow { s with enrollments := s.enrollments ++ [⟨s.nextId, u.id, entry.learning_path, true⟩], nextId := s.nextId + 1 } (.enrollment s.nextId) (pendingAuditData s u entry)] := by
      rw [hdb2, create_enrollment_audit_eq_createRow _ _ _ _ _ _ _ (pendingAuditData_label s u entry)]
      rfl
    rw [hres]
    constructor
    · rw [saveAllowed_enrollments]
      show db2.enrollments = _
      exact hdb2enr
    · rw [saveAllowed_audits_none]
      show db2.audits.map _ = _
      rw [hdb2aud, List.map_append]
      congr 1

theorem find?_append_none {α : Type} (p : α → Bool) (l1 l2 : List α)
    (h1 : l1.find? p = none) (h2 : l2.find? p = none) : (l1 ++ l2).find? p = none := by
  rw [List.find?_eq_none] at h1 h2 ⊢
  intro x hx
  rcases List.mem_append.mp hx with h | h
  · exact h1 x h
  · exact h2 x h

/-- A resolver iteration for a record of a different learning path never
creates an enrollment for the given path. -/
theorem findEnrollment_none_preserved (s : DB) (u : UserAccount)
    (e0 : LearningPathEnrollmentAllowed) (p : Nat)
    (hne : ¬e0.learning_path = p) (h : findEnrollment s u.id p = none) :
    findEnrollment (resolveOneAllowed s u e0) u.id p = none := by
  cases hf : findEnrollment s u.id e0.learning_path with
  | some e2 =>
    obtain ⟨henr, -⟩ := resolveOneAllowed_skip s u e0 e2 hf
    unfold findEnrollment
    rw [henr]
    exact h
  | none =>
    obtain ⟨henr, -⟩ := resolveOneAllowed_promote s u e0 hf
    unfold findEnrollment
    rw [henr]
    apply find?_append_none
    · exact h
    · rw [List.find?_eq_none]
      intro x hx hcontra
      rw [List.mem_singleton.mp hx] at hcontra
      have hbe : (e0.learning_path == p) = false := by
        rw [beq_eq_false_iff_ne]
        exact hne
      simp [hbe] at hcontra

/-- After processing, every allowed row with the given id is deactivated
with the new user attached. -/
def deactivatedFor (u : UserAccount) (i : Nat) (db : DB) : Prop :=
  ∀ x ∈ db.alloweds, x.id = i → x.is_active = false ∧ x.user = some u.id

/-- The promotion outcome for one allowed-record: exactly one active
enrollment for (user, its learning path) — the row with id `eid` — an
`ALLOWEDTOENROLL_TO_ENROLLED` audit row referencing it with the new user
as actor, and every audit row of the allowed-record re-parented onto it. -/
def promotedFor (u : UserAccount) (entry : LearningPathEnrollmentAllowed) (eid : Nat)
    (db : DB) : Prop :=
  ((db.enrollments.filter (fun e => e.user == u.id && e.learning_path == entry.learning_path && e.is_active)).map (fun e => e.id)) = [eid]
  ∧ (∃ a ∈ db.audits, a.state_transition = Label.ALLOWEDTOENROLL_TO_ENROLLED
      ∧ a.enrollment = some eid ∧ a.enrollment_allowed = none ∧ a.enrolled_by = some u.id)
  ∧ (∀ a ∈ db.audits, a.enrollment_allowed = some entry.id → a.enrollment = some eid)

theorem deactivatedFor_established (s : DB) (u : UserAccount)
    (entry : LearningPathEnrollmentAllowed) :
    deactivatedFor u entry.id (resolveOneAllowed s u entry) := by
  intro x hx hid
  rw [resolveOneAllowed_alloweds] at hx
  exact mem_map_setAllowed x hx hid

theorem deactivatedFor_preserved (s : DB) (u : UserAccount) (i : Nat)
    (e0 : LearningPathEnrollmentAllowed) (h : deactivatedFor u i s) :
    deactivatedFor u i (resolveOneAllowed s u e0) := by
  intro x hx hid
  rw [resolveOneAllowed_alloweds] at hx
  obtain ⟨y, hy, hxy⟩ := List.mem_map.mp hx
  by_cases hc : (y.id == e0.id) = true
  · rw [if_pos hc] at hxy
    rw [← hxy]
    exact ⟨rfl, rfl⟩
  · rw [if_neg hc] at hxy
    subst hxy
    exact h y hy hid

theorem promotedFor_established (s : DB) (u : UserAccount)
    (entry : LearningPathEnrollmentAllowed)
    (h : findEnrollment s u.id entry.learning_path = none) :
    promotedFor u entry s.nextId (resolveOneAllowed s u entry) := by
  obtain ⟨henr, haud⟩ := resolveOneAllowed_promote s u entry h
  refine ⟨?_, ?_, ?_⟩
  · rw [henr, List.filter_append]
    have hnil : s.enrollments.filter
        (fun e => e.user == u.id && e.learning_path == entry.learning_path && e.is_active) = [] := by
      rw [List.filter_eq_nil_iff]
      intro e he hcontra
      have hf := List.find?_eq_none.mp h e he
      cases h1 : (e.user == u.id) <;> cases h2 : (e.learning_path == entry.learning_path) <;>
        simp_all
    rw [hnil]
    simp
  · refine ⟨builtAuditRow { s with enrollments := s.enrollments ++ [⟨s.nextId, u.id, entry.learning_path, true⟩], nextId := s.nextId + 1 } (.enrollment s.nextId) (pendingAuditData s u entry), ?_, ?_, rfl, rfl, ?_⟩
    · rw [haud]
      exact List.mem_append_right _ (List.mem_singleton_self _)
    · show (pendingAuditData s u entry).state_transition.getD Label.DEFAULT_TRANSITION_STATE = _
      rw [pendingAuditData_label]
      rfl
    · show (pendingAuditData s u entry).enrolled_by = some u.id
      exact pendingAuditData_enrolled_by s u entry
  · intro a ha hae
    rw [haud] at ha
    rcases List.mem_append.mp ha with hmap | hrow
    · obtain ⟨b, -, hba⟩ := List.mem_map.mp hmap
      by_cases hcond : (b.enrollment_allowed == some entry.id) = true
      · rw [if_pos hcond] at hba
        rw [← hba]
      · rw [if_neg hcond] at hba
        subst hba
        exact absurd (beq_iff_eq.mpr hae) hcond
    · rw [List.mem_singleton.mp hrow] at hae
      rw [builtAuditRow_allowed_ref_of_enrollment] at hae
      exact Option.noConfusion hae

theorem promotedFor_preserved (s : DB) (u : UserAccount)
    (entry : LearningPathEnrollmentAllowed) (eid : Nat)
    (e0 : LearningPathEnrollmentAllowed)
    (hpath : ¬e0.learning_path = entry.learning_path) (hid : ¬e0.id = entry.id)
    (h : promotedFor u entry eid s) :
    promotedFor u entry eid (resolveOneAllowed s u e0) := by
  obtain ⟨h1, ⟨a, hamem, hast, haenr, haall, haeb⟩, h3⟩ := h
  cases hf : findEnrollment s u.id e0.learning_path with
  | some e2 =>
    obtain ⟨henr, haud⟩ := resolveOneAllowed_skip s u e0 e2 hf
    refine ⟨?_, ⟨a, ?_, hast, haenr, haall, haeb⟩, ?_⟩
    · rw [henr]
      exact h1
    · rw [haud]
      exact hamem
    · intro b hb hbref
      rw [haud] at hb
      exact h3 b hb hbref
  | none =>
    obtain ⟨henr, haud⟩ := resolveOneAllowed_promote s u e0 hf
    have hbe : (e0.learning_path == entry.learning_path) = false := by
      rw [beq_eq_false_iff_ne]
      exact hpath
    refine ⟨?_, ?_, ?_⟩
    · rw [henr, List.filter_append]
      have hsing : List.filter
          (fun e : LearningPathEnrollment => e.user == u.id && e.learning_path == entry.learning_path && e.is_active)
          [⟨s.nextId, u.id, e0.learning_path, true⟩] = [] := by
        simp [hbe]
      rw [hsing, List.append_nil]
      exact h1
    · have hfix : (fun x => if x.enrollment_allowed == some e0.id then { x with enrollment := some s.nextId } else x) a = a := by
        have hcond : (a.enrollment_allowed == some e0.id) = false := by
          rw [haall]
          rfl
        simp only [hcond]
        rfl
      refine ⟨a, ?_, hast, haenr, haall, haeb⟩
      rw [haud]
      apply List.mem_append_left
      rw [← hfix]
      exact List.mem_map_of_mem _ hamem
    · intro b hb hbref
      rw [haud] at hb
      rcases List.mem_append.mp hb with hmap | hrow
      · obtain ⟨c, hc, hcb⟩ := List.mem_map.mp hmap
        by_cases hcond : (c.enrollment_allowed == some e0.id) = true
        · exfalso
          apply hid
          have hc1 : c.enrollment_allowed = some e0.id := beq_iff_eq.mp hcond
          rw [if_pos hcond] at hcb
          rw [← hcb] at hbref
          have hc2 : c.enrollment_allowed = some entry.id := hbref
          rw [hc1] at hc2
          exact Option.some.inj hc2
        · rw [if_neg hcond] at hcb
          subst hcb
          exact h3 c hc hbref
      · rw [List.mem_singleton.mp hrow] at hbref
        rw [builtAuditRow_allowed_ref_of_enrollment] at hbref
        exact Option.noConfusion hbref

theorem foldl_inv_mem {α : Type} {β : Type} (P : α → Prop) (f : α → β → α) :
    ∀ (l : List β), (∀ s x, x ∈ l → P s → P (f s x)) → ∀ s, P s → P (l.foldl f s) := by
  intro l
  induction l with
  | nil =>
    intro _ s hs
    exact hs
  | cons x xs ih =>
    intro h s hs
    exact ih (fun s2 y hy hs2 => h s2 y (List.mem_cons_of_mem _ hy) hs2) _
      (h s x (List.mem_cons_self _ _) hs)

/-- Per-entry outcome of the resolver's whole loop, for pairwise-distinct
matching rows (distinct primary keys, and distinct learning paths as the
unique (email, learning_path) constraint guarantees for rows sharing one
email): every processed entry ends deactivated with the user attached, and
every entry whose (user, path) pair had no enrollment beforehand is
promoted. -/
theorem resolve_fold_entry_spec (u : UserAccount) :
    ∀ (l : List LearningPathEnrollmentAllowed),
      l.Pairwise (fun a b => ¬a.learning_path = b.learning_path ∧ ¬a.id = b.id) →
      ∀ (s : DB), ∀ entry ∈ l,
        deactivatedFor u entry.id (l.foldl (fun acc e => resolveOneAllowed acc u e) s)
        ∧ (findEnrollment s u.id entry.learning_path = none →
            ∃ eid, promotedFor u entry eid (l.foldl (fun acc e => resolveOneAllowed acc u e) s)) := by
  intro l
  induction l with
  | nil =>
    intro _ s entry hmem
    exact absurd hmem (List.not_mem_nil _)
  | cons e0 rest ih =>
    intro hpw s entry hmem
    rw [List.pairwise_cons] at hpw
    obtain ⟨hhead, htail⟩ := hpw
    rw [List.foldl_cons]
    rcases List.mem_cons.mp hmem with rfl | hrest
    · constructor
      · exact foldl_inv (deactivatedFor u entry.id) _
          (fun s2 e2 hs2 => deactivatedFor_preserved s2 u entry.id e2 hs2) rest _
          (deactivatedFor_established s u entry)
      · intro hfind
        refine ⟨s.nextId, ?_⟩
        refine foldl_inv_mem (promotedFor u entry s.nextId) _ rest ?_ _
          (promotedFor_established s u entry hfind)
        intro s2 e2 he2 hs2
        obtain ⟨hp, hi⟩ := hhead e2 he2
        exact promotedFor_preserved s2 u entry s.nextId e2
          (fun hc => hp hc.symm) (fun hc => hi hc.symm) hs2
    · have hspec := ih htail (resolveOneAllowed s u e0) entry hrest
      refine ⟨hspec.1, ?_⟩
      intro hfind
      apply hspec.2
      obtain ⟨hp, hi⟩ := hhead entry hrest
      exact findEnrollment_none_preserved s u e0 entry.learning_path hp hfind

/-- C2 — Promotion round-trip, over every matching allowed-record: when a
new user account is created, for every active allowed-record whose email
matches — arbitrarily many; the pairwise-distinctness hypothesis on
primary keys and learning paths only restates the schema, where rows are
distinct and (email, learning_path) is unique — `process_pending_enrollments`
(a) always leaves that record deactivated with the new user attached, also
on the `IntegrityError` path, and (b) when no enrollment for (new user,
that record's path) pre-existed, creates exactly one active enrollment for
the pair, with an `ALLOWEDTOENROLL_TO_ENROLLED` audit row referencing it
and actored by the new user, and with every audit row of the
allowed-record re-parented onto it. -/
theorem c2_promotion_round_trip (db : DB) (u : UserAccount)
    (hpw : (db.alloweds.filter (fun a => a.email == u.email && a.is_active)).Pairwise
        (fun a b => ¬a.learning_path = b.learning_path ∧ ¬a.id = b.id)) :
    ∀ entry ∈ db.alloweds.filter (fun a => a.email == u.email && a.is_active),
      (∀ x ∈ (process_pending_enrollments db u true).alloweds,
          x.id = entry.id → x.is_active = false ∧ x.user = some u.id)
      ∧ (findEnrollment db u.id entry.learning_path = none →
          ∃ eid,
            ((process_pending_enrollments db u true).enrollments.filter
                (fun e => e.user == u.id && e.learning_path == entry.learning_path && e.is_active)).map (fun e => e.id) = [eid]
            ∧ (∃ a ∈ (process_pending_enrollments db u true).audits,
                a.state_transition = Label.ALLOWEDTOENROLL_TO_ENROLLED ∧ a.enrollment = some eid
                ∧ a.enrollment_allowed = none ∧ a.enrolled_by = some u.id)
            ∧ (∀ a ∈ (process_pending_enrollments db u true).audits,
                a.enrollment_allowed = some entry.id → a.enrollment = some eid)) := by
  intro entry hmem
  have hrun : process_pending_enrollments db u true =
      (db.alloweds.filter (fun a => a.email == u.email && a.is_active)).foldl
        (fun acc e => resolveOneAllowed acc u e) db := by
    simp [process_pending_enrollments]
  rw [hrun]
  have hspec := resolve_fold_entry_spec u _ hpw db entry hmem
  exact ⟨hspec.1, fun hfind => hspec.2 hfind⟩

/-- Concrete store for the C2 witness: two active invitations for one
email across two learning paths, one carrying an invite-reason audit row. -/
def c2WitnessStore : DB :=
  { enrollments := []
    alloweds := [⟨0, "a@b.com", 1, none, true⟩, ⟨1, "a@b.com", 2, none, true⟩]
    audits := [⟨2, some 99, none, some 0, .UNENROLLED_TO_ALLOWEDTOENROLL, "invite", "", ""⟩]
    nextId := 3 }

/-- Witness for C2: both matching records of the two-invitation store are
promoted to enrollments and end deactivated with the user attached. -/
theorem c2_witness :
    (∀ x ∈ (process_pending_enrollments c2WitnessStore ⟨7, "a@b.com"⟩ true).alloweds,
        x.id = 0 → x.is_active = false ∧ x.user = some 7)
    ∧ (∀ x ∈ (process_pending_enrollments c2WitnessStore ⟨7, "a@b.com"⟩ true).alloweds,
        x.id = 1 → x.is_active = false ∧ x.user = some 7)
    ∧ (∃ eid,
        ((process_pending_enrollments c2WitnessStore ⟨7, "a@b.com"⟩ true).enrollments.filter
            (fun e => e.user == 7 && e.learning_path == 1 && e.is_active)).map (fun e => e.id) = [eid]
        ∧ (∃ a ∈ (process_pending_enrollments c2WitnessStore ⟨7, "a@b.com"⟩ true).audits,
            a.state_transition = Label.ALLOWEDTOENROLL_TO_ENROLLED ∧ a.enrollment = some eid
            ∧ a.enrollment_allowed = none ∧ a.enrolled_by = some 7)
        ∧ (∀ a ∈ (process_pending_enrollments c2WitnessStore ⟨7, "a@b.com"⟩ true).audits,
            a.enrollment_allowed = some 0 → a.enrollment = some eid))
    ∧ (∃ eid,
        ((process_pending_enrollments c2WitnessStore ⟨7, "a@b.com"⟩ true).enrollments.filter
            (fun e => e.user == 7 && e.learning_path == 2 && e.is_active)).map (fun e => e.id) = [eid]
        ∧ (∃ a ∈ (process_pending_enrollments c2WitnessStore ⟨7, "a@b.com"⟩ true).audits,
            a.state_transition = Label.ALLOWEDTOENROLL_TO_ENROLLED ∧ a.enrollment = some eid
            ∧ a.enrollment_allowed = none ∧ a.enrolled_by = some 7)
        ∧ (∀ a ∈ (process_pending_enrollments c2WitnessStore ⟨7, "a@b.com"⟩ true).audits,
            a.enrollment_allowed = some 1 → a.enrollment = some eid)) :=
  ⟨(c2_promotion_round_trip c2WitnessStore ⟨7, "a@b.com"⟩ (by decide)
      ⟨0, "a@b.com", 1, none, true⟩ (by decide)).1,
   (c2_promotion_round_trip c2WitnessStore ⟨7, "a@b.com"⟩ (by decide)
      ⟨1, "a@b.com", 2, none, true⟩ (by decide)).1,
   (c2_promotion_round_trip c2WitnessStore ⟨7, "a@b.com"⟩ (by decide)
      ⟨0, "a@b.com", 1, none, true⟩ (by decide)).2 (by decide),
   (c2_promotion_round_trip c2WitnessStore ⟨7, "a@b.com"⟩ (by decide)
      ⟨1, "a@b.com", 2, none, true⟩ (by decide)).2 (by decide)⟩

/-! ### Claim C3 -/

/-- Invariant: every audit row references at least one of the enrollment /
allowed-record entities. -/
def AuditRefsOK (db : DB) : Prop :=
  ∀ a ∈ db.audits, a.enrollment.isSome = true ∨ a.enrollment_allowed.isSome = true

theorem auditRefsOK_createRow {db : DB} (o : AuditOwner) (ad : AuditData)
    (h : AuditRefsOK db) : AuditRefsOK (createEnrollmentAuditRow db o ad) := by
  intro a ha
  simp only [createEnrollmentAuditRow] at ha
  rcases List.mem_append.mp ha with hmem | hnew
  · exact h a hmem
  · rw [List.mem_singleton.mp hnew]
    cases o with
    | enrollment i => exact Or.inl rfl
    | allowed i => exact Or.inr rfl

theorem auditRefsOK_create_enrollment_audit (db : DB) (eid : Nat) (ad : AuditData)
    (c p n : Bool) (h : AuditRefsOK db) :
    AuditRefsOK (create_enrollment_audit db eid ad c p n) := by
  simp only [create_enrollment_audit]
  split <;> exact auditRefsOK_createRow _ _ h

theorem auditRefsOK_create_allowed (db : DB) (aid : Nat) (ad : Option AuditData)
    (h : AuditRefsOK db) : AuditRefsOK (create_enrollment_allowed_audit db aid ad) := by
  cases ad with
  | none => exact h
  | some d =>
    simp only [create_enrollment_allowed_audit]
    split
    · exact h
    · exact auditRefsOK_createRow _ _ h

theorem auditRefsOK_update (db : DB) (eid : Nat) (newA : Bool) (ad : AuditData)
    (h : AuditRefsOK db) : AuditRefsOK (updateEnrollmentActive db eid newA ad) := by
  unfold updateEnrollmentActive
  cases hf : db.enrollments.find? (fun e => e.id == eid) with
  | none => exact h
  | some e => exact auditRefsOK_create_enrollment_audit _ _ _ _ _ _ h

theorem auditRefsOK_insert {db : DB} {u p : Nat} {act : Bool} {ad : AuditData} {db2 : DB}
    {eid : Nat} (hins : insertEnrollment db u p act ad = some (db2, eid))
    (h : AuditRefsOK db) : AuditRefsOK db2 := by
  obtain ⟨hdb2, -, -⟩ := insertEnrollment_eq_some _ _ _ _ _ _ _ hins
  subst hdb2
  exact auditRefsOK_create_enrollment_audit _ _ _ _ _ _ h

theorem auditRefsOK_saveAllowed (db : DB) (aid : Nat) (act : Bool) (usr : Option Nat)
    (ad : Option AuditData) (h : AuditRefsOK db) :
    AuditRefsOK (saveAllowed db aid act usr ad) := by
  unfold saveAllowed
  exact auditRefsOK_create_allowed _ _ _ h

theorem auditRefsOK_getOrCreateAllowed (db : DB) (email : String) (p : Nat)
    (h : AuditRefsOK db) : AuditRefsOK (getOrCreateAllowed db email p).1 := by
  unfold getOrCreateAllowed
  cases hf : findAllowed db email p with
  | some a => exact h
  | none => exact h

theorem auditRefsOK_resolveOne (db : DB) (u : UserAccount)
    (entry : LearningPathEnrollmentAllowed) (h : AuditRefsOK db) :
    AuditRefsOK (resolveOneAllowed db u entry) := by
  unfold resolveOneAllowed
  apply auditRefsOK_saveAllowed
  cases hins : insertEnrollment db u.id entry.learning_path true (pendingAuditData db u entry) with
  | none => exact h
  | some r =>
    obtain ⟨db2, eid⟩ := r
    intro a ha
    obtain ⟨b, hb, hba⟩ := List.mem_map.mp ha
    have hrefs := auditRefsOK_insert hins h b hb
    by_cases hcond : (b.enrollment_allowed == some entry.id) = true
    · rw [if_pos hcond] at hba
      rw [← hba]
      exact Or.inl rfl
    · rw [if_neg hcond] at hba
      rw [← hba]
      exact hrefs

theorem auditRefsOK_process_pending (db : DB) (u : UserAccount) (created : Bool)
    (h : AuditRefsOK db) : AuditRefsOK (process_pending_enrollments db u created) := by
  unfold process_pending_enrollments
  split
  · exact h
  · exact foldl_inv AuditRefsOK _ (fun s entry hs => auditRefsOK_resolveOne s u entry hs) _ db h

theorem auditRefsOK_bulkEnrollUserStep (db : DB) (m : BulkMeta) (p u : Nat)
    (h : AuditRefsOK db) : AuditRefsOK (bulkEnrollUserStep db m p u).1 := by
  unfold bulkEnrollUserStep
  split
  · split
    · exact auditRefsOK_update _ _ _ _ h
    · exact auditRefsOK_update _ _ _ _ h
  · split
    · next db2 eid heq => exact auditRefsOK_insert heq h
    · exact h

theorem auditRefsOK_bulkEnrollEmailStep (db : DB) (m : BulkMeta) (v : String → Bool)
    (p : Nat) (email : String) (h : AuditRefsOK db) :
    AuditRefsOK (bulkEnrollEmailStep db m v p email).1 := by
  unfold bulkEnrollEmailStep
  split
  · exact h
  · exact auditRefsOK_saveAllowed _ _ _ _ _ (auditRefsOK_getOrCreateAllowed db email p h)

theorem auditRefsOK_bulkUnenrollUserStep (db : DB) (m : BulkMeta) (p u : Nat)
    (h : AuditRefsOK db) : AuditRefsOK (bulkUnenrollUserStep db m p u).1 := by
  unfold bulkUnenrollUserStep
  split
  · split
    · exact auditRefsOK_update _ _ _ _ h
    · exact auditRefsOK_update _ _ _ _ h
  · exact h

theorem auditRefsOK_bulkUnenrollEmailStep (db : DB) (m : BulkMeta) (v : String → Bool)
    (p : Nat) (email : String) (h : AuditRefsOK db) :
    AuditRefsOK (bulkUnenrollEmailStep db m v p email).1 := by
  unfold bulkUnenrollEmailStep
  split
  · exact h
  · split
    · split
      · exact auditRefsOK_saveAllowed _ _ _ _ _ h
      · exact auditRefsOK_saveAllowed _ _ _ _ _ h
    · exact h

theorem auditRefsOK_bulk_enroll (db : DB) (m : BulkMeta) (v : String → Bool)
    (paths : List Nat) (users : List Nat) (emails : List String) (h : AuditRefsOK db) :
    AuditRefsOK (bulk_enroll db m v paths users emails).1 := by
  unfold bulk_enroll
  refine foldl_inv (fun acc : DB × Nat × Nat => AuditRefsOK acc.1) _ ?_ paths (db, 0, 0) h
  intro s p hs
  have hU : AuditRefsOK (users.foldl (fun acc2 u =>
      let (db, c) := acc2
      let (db2, i) := bulkEnrollUserStep db m p u
      (db2, c + i)) (s.1, s.2.1)).1 := by
    refine foldl_inv (fun acc : DB × Nat => AuditRefsOK acc.1) _ ?_ users (s.1, s.2.1) hs
    intro s2 u hs2
    exact auditRefsOK_bulkEnrollUserStep s2.1 m p u hs2
  refine foldl_inv (fun acc : DB × Nat => AuditRefsOK acc.1) _ ?_ emails _ hU
  intro s2 e hs2
  exact auditRefsOK_bulkEnrollEmailStep s2.1 m v p e hs2

theorem auditRefsOK_bulk_unenroll (db : DB) (m : BulkMeta) (v : String → Bool)
    (paths : List Nat) (users : List Nat) (emails : List String) (h : AuditRefsOK db) :
    AuditRefsOK (bulk_unenroll db m v paths users emails).1 := by
  unfold bulk_unenroll
  refine foldl_inv (fun acc : DB × Nat × Nat => AuditRefsOK acc.1) _ ?_ paths (db, 0, 0) h
  intro s p hs
  have hU : AuditRefsOK (users.foldl (fun acc2 u =>
      let (db, c) := acc2
      let (db2, i) := bulkUnenrollUserStep db m p u
      (db2, c + i)) (s.1, s.2.1)).1 := by
    refine foldl_inv (fun acc : DB × Nat => AuditRefsOK acc.1) _ ?_ users (s.1, s.2.1) hs
    intro s2 u hs2
    exact auditRefsOK_bulkUnenrollUserStep s2.1 m p u hs2
  refine foldl_inv (fun acc : DB × Nat => AuditRefsOK acc.1) _ ?_ emails _ hU
  intro s2 e hs2
  exact auditRefsOK_bulkUnenrollEmailStep s2.1 m v p e hs2

theorem auditRefsOK_enrollmentViewEnroll (db : DB) (u p : Nat) (h : AuditRefsOK db) :
    AuditRefsOK (enrollmentViewEnroll db u p) := by
  unfold enrollmentViewEnroll
  split
  · split
    · next db2 eid heq => exact auditRefsOK_insert heq h
    · exact h
  · split
    · exact h
    · exact auditRefsOK_update _ _ _ _ h

theorem auditRefsOK_enrollmentViewUnenroll (db : DB) (u p : Nat) (h : AuditRefsOK db) :
    AuditRefsOK (enrollmentViewUnenroll db u p) := by
  unfold enrollmentViewUnenroll
  split
  · exact h
  · exact auditRefsOK_update _ _ _ _ h

theorem auditRefsOK_applyOp (db : DB) (op : Op) (h : AuditRefsOK db) :
    AuditRefsOK (applyOp db op) := by
  cases op with
  | enroll u p => exact auditRefsOK_enrollmentViewEnroll db u p h
  | unenroll u p => exact auditRefsOK_enrollmentViewUnenroll db u p h
  | bulkEnroll m v ps us es => exact auditRefsOK_bulk_enroll db m v ps us es h
  | bulkUnenroll m v ps us es => exact auditRefsOK_bulk_unenroll db m v ps us es h
  | userCreated u c => exact auditRefsOK_process_pending db u c h

/-- C3 counterexample: the claim "never both references at once" fails on
the code.  Reachable run: bulk-enroll an accountless email (creating an
allowed-record and its audit row), then create the matching user account.
`process_pending_enrollments` re-parents the allowed-record's audit rows by
setting the `enrollment` foreign key without clearing `enrollment_allowed`
(`entry.audit.update(enrollment=enrollment)`), leaving an audit row (with a
canonical, non-default label) that references both entities. -/
theorem c3_counterexample_both_refs :
    ((runOps [
        .bulkEnroll ⟨none, "invite", "", ""⟩ (fun _ => true) [1] [] ["a@b.com"],
        .userCreated ⟨7, "a@b.com"⟩ true]).audits.any
      (fun a => a.enrollment.isSome && a.enrollment_allowed.isSome
        && (a.state_transition != Label.DEFAULT_TRANSITION_STATE))) = true := by
  decide

/-- C3 (amended) — In every state reachable by any sequence of enroll,
bulk enroll/unenroll and pending-enrollment-resolution operations, every
audit row references at least one of {enrollment, allowed-record} (a row
with neither reference never arises); a row can carry both references,
namely after pending-resolution re-parents an allowed-record's audit rows
onto the new enrollment without clearing the allowed reference. -/
theorem c3_audit_refs_amended (ops : List Op) :
    ∀ a ∈ (runOps ops).audits,
      a.enrollment.isSome = true ∨ a.enrollment_allowed.isSome = true := by
  have h0 : AuditRefsOK emptyDB := by
    intro a ha
    simp [emptyDB] at ha
  exact foldl_inv AuditRefsOK applyOp auditRefsOK_applyOp ops emptyDB h0

/-- Witness for C3's amended theorem: the audit row of a single
self-enrollment. -/
theorem c3_amended_witness :
    ((⟨1, none, some 0, none, .UNENROLLED_TO_ENROLLED, "", "", ""⟩ : LearningPathEnrollmentAudit)
        ∈ (runOps [.enroll 5 1]).audits)
    ∧ ((⟨1, none, some 0, none, .UNENROLLED_TO_ENROLLED, "", "", ""⟩ : LearningPathEnrollmentAudit).enrollment.isSome = true
      ∨ (⟨1, none, some 0, none, .UNENROLLED_TO_ENROLLED, "", "", ""⟩ : LearningPathEnrollmentAudit).enrollment_allowed.isSome = true) :=
  ⟨by decide, c3_audit_refs_amended [.enroll 5 1] _ (by decide)⟩

end LearningPaths
